import Mathlib

/-!
# go-kit: session middleware, session accessors and string escaping

A shallow embedding of `pkg/session/session.go`, `pkg/session/store.go` and
`pkg/utils/utils.go`.

Conventions of the embedding:

* a Go `string` is a Lean `String` (the text is taken to be valid UTF-8);
* a Go `(value, error)` result is a pair whose last component is `Option GoError`,
  `none` standing for a `nil` error;
* `time.Duration` and wall-clock instants are integers counting nanoseconds
  (instants: nanoseconds since the Unix epoch);
* `map[string]string` is a finite map `AList`;
* the Redis backend, the clock, the random source and the Fiber request context are
  explicit: the backend contents and the request context live in `World`, the
  readings of the outside world (clock, random bytes, backend failures) in `Env`.
-/

namespace GoKit

/-! ## Errors -/

/-- The error values that occur in the program. -/
inductive GoError
  /-- The value `redis.Nil`: the key or the field does not exist. -/
  | redisNil
  /-- Any other failure reported by the backend (connection, timeout, ...). -/
  | backend (command : Nat)
  /-- The error reported by `crypto/rand.Read`. -/
  | rand (msg : String)
  /-- The value `fiber.ErrInternalServerError`. -/
  | ErrInternalServerError
  /-- The value `fiber.ErrUnauthorized`. -/
  | ErrUnauthorized
  deriving DecidableEq, Repr

/-! ## pkg/utils: EscapeString -/

/-- A regular expression that is a single bracket expression, such as
`[^a-zA-Z0-9_ ]`: the ranges listed between the brackets (a single character `c`
is the range `c-c`) and whether the expression starts with `^`. -/
structure CharClass where
  negated : Bool
  ranges : List (Char × Char)

/-- Whether one character matches the bracket expression. -/
def CharClass.accepts (re : CharClass) (c : Char) : Bool :=
  re.negated != re.ranges.any (fun r => decide (r.1 ≤ c) && decide (c ≤ r.2))

/-- The function `(*Regexp).ReplaceAllStringFunc` on characters, for a bracket
expression: the matches are the single characters accepted by the expression, taken
left to right; each match is replaced by `repl` of the matched text and the text
between matches is copied. -/
def replaceAllChars (re : CharClass) (repl : String → String) : List Char → List Char
  | [] => []
  | c :: rest =>
    if re.accepts c then (repl (String.singleton c)).data ++ replaceAllChars re repl rest
    else c :: replaceAllChars re repl rest

/-- The function `(*Regexp).ReplaceAllStringFunc` for a bracket expression. -/
def CharClass.ReplaceAllStringFunc (re : CharClass) (src : String)
    (repl : String → String) : String :=
  String.mk (replaceAllChars re repl src.data)

/-- The pattern of `EscapeString`, `regexp.MustCompile("[^a-zA-Z0-9_ ]")`. -/
def escapePattern : CharClass :=
  { negated := true, ranges := [('a', 'z'), ('A', 'Z'), ('0', '9'), ('_', '_'), (' ', ' ')] }

/-- The function `EscapeString` of `pkg/utils/utils.go`. -/
def EscapeString (value : String) : String :=
  escapePattern.ReplaceAllStringFunc value (fun s => "\\" ++ s)

/-! ## Library functions used by the session middleware -/

/-- The digit table of `encoding/hex`. -/
def hextable : List Char :=
  ['0', '1', '2', '3', '4', '5', '6', '7', '8', '9', 'a', 'b', 'c', 'd', 'e', 'f']

/-- The characters `hextable[b >> 4]`, `hextable[b & 0x0f]` of one byte. -/
def hexByte (b : Nat) : List Char :=
  [hextable.getD (b % 256 / 16) '0', hextable.getD (b % 256 % 16) '0']

/-- The function `hex.EncodeToString`: two digits per byte. -/
def hexEncodeToString : List Nat → String
  | bytes => String.mk (bytes.foldr (fun b acc => hexByte b ++ acc) [])

/-- The decimal digits of a natural number, most significant first; `fuel` bounds the
number of digits. -/
def decimalDigits : Nat → Nat → List Char → List Char
  | 0, _, acc => acc
  | fuel + 1, n, acc =>
    let acc := Char.ofNat (48 + n % 10) :: acc
    if n / 10 = 0 then acc else decimalDigits fuel (n / 10) acc

/-- The function `strconv.FormatInt(n, 10)`. -/
def FormatInt (n : Int) : String :=
  if n < 0 then String.mk ('-' :: decimalDigits (n.natAbs + 1) n.natAbs [])
  else String.mk (decimalDigits (n.natAbs + 1) n.natAbs [])

/-- The value of a decimal digit, `none` for any other character. -/
def digitValue (c : Char) : Option Nat :=
  if '0' ≤ c ∧ c ≤ '9' then some (c.toNat - 48) else none

/-- The value of a non-empty run of decimal digits read after `acc`; `none` when a
character is not a digit. -/
def parseDigits : List Char → Nat → Option Nat
  | [], acc => some acc
  | c :: rest, acc =>
    match digitValue c with
    | none => none
    | some d => parseDigits rest (acc * 10 + d)

/-- The largest `int64`. -/
def maxInt64 : Int := 9223372036854775807

/-- The smallest `int64`. -/
def minInt64 : Int := -9223372036854775808

/-- The function `strconv.ParseInt(s, 10, 64)`: an optional sign followed by at least
one decimal digit, the value within the range of `int64`; `none` when the call
returns an error (syntax or range). -/
def ParseInt (s : String) : Option Int :=
  let body (neg : Bool) (ds : List Char) : Option Int :=
    match ds with
    | [] => none
    | _ :: _ =>
      match parseDigits ds 0 with
      | none => none
      | some un =>
        if neg then (if (un : Int) ≤ maxInt64 + 1 then some (-(un : Int)) else none)
        else (if (un : Int) ≤ maxInt64 then some (un : Int) else none)
  match s.data with
  | [] => none
  | '+' :: ds => body false ds
  | '-' :: ds => body true ds
  | ds => body false ds

/-- The largest `time.Duration`. -/
def maxDuration : Int := maxInt64

/-- The smallest `time.Duration`. -/
def minDuration : Int := minInt64

/-- One second as a `time.Duration`. -/
def Second : Int := 1000000000

/-- The offset `unixToInternal` of package `time`: the seconds from year 1 to 1970. -/
def unixToInternal : Int := 62135596800

/-- The `int64` that a 64-bit addition or multiplication leaves for the exact
result `x`. -/
def wrapInt64 (x : Int) : Int := (x + 2 ^ 63) % 2 ^ 64 - 2 ^ 63

/-- The instant `time.Unix(sec, 0)`, in nanoseconds since the epoch. A `Time` keeps
the seconds since year 1 in an `int64`, computed as `sec + unixToInternal`; that sum
wraps for the largest values of `sec`, which therefore have no corresponding instant
and stand for an instant far in the past. -/
def timeUnix (sec : Int) : Int := (wrapInt64 (sec + unixToInternal) - unixToInternal) * Second

/-- The method `Time.Unix`: whole seconds since the epoch, rounded down. -/
def unixSeconds (t : Int) : Int := t / Second

/-- The method `Time.Sub`: the duration `t - u`, replaced by the largest (smallest)
duration when the difference exceeds it. -/
def timeSub (t u : Int) : Int :=
  if t - u > maxDuration then maxDuration
  else if t - u < minDuration then minDuration
  else t - u

/-- The function `time.Since(t)`, which is `time.Now().Sub(t)`. -/
def timeSince (now t : Int) : Int := timeSub now t

/-! ## The outside world -/

/-- Equality of finite maps is decided on their entries. -/
instance alistDecEq {α : Type} {β : α → Type} [DecidableEq α] [∀ a, DecidableEq (β a)] :
    DecidableEq (AList β) :=
  fun xs ys => decidable_of_iff (xs.entries = ys.entries) ⟨AList.ext, congrArg _⟩

/-- A Go `map[string]string`. -/
abbrev Fields := AList (fun _ : String => String)

/-- One hash of the Redis backend: its fields and the time to live last applied to
the key, as a duration (`none`: the key does not expire). -/
structure Record where
  fields : Fields
  ttl : Option Int
  deriving DecidableEq

/-- The commands sent to the Redis backend, each with the arguments of the call of
the go-redis client. -/
inductive Command
  | HSet (key : String) (values : Fields)
  | HGetAll (key : String)
  | HGet (key field : String)
  | Expire (key : String) (expiration : Int)
  | Del (key : String)
  deriving DecidableEq

/-- A value kept in the Fiber locals: a string, or a value of another type. -/
inductive Local
  | str (s : String)
  | other (tag : Nat)
  deriving DecidableEq

/-- The fields of `fiber.Cookie` that the middleware sets. -/
structure Cookie where
  Name : String
  Value : String
  HTTPOnly : Bool
  Secure : Bool
  SameSite : String
  Path : String
  Expires : Int
  deriving DecidableEq

/-- What a request reads from outside the program: the wall clock `time.Now()` (one
instant `now` for all readings of a request), the
outcome of `crypto/rand.Read` (its error, if any, and the bytes it delivers, byte `i`
being `randBytes i % 256`), and which backend commands fail (command number `i`,
counted over all commands ever logged, fails when `faults i`). -/
structure Env where
  now : Int
  randErr : Option GoError
  randBytes : Nat → Nat
  faults : Nat → Bool

/-- The state a request acts on: the contents of the Redis backend, the commands
sent to it so far (oldest first), and the Fiber context of the request (the cookies
of the request, the cookies of the response by name, the locals). -/
structure World where
  records : AList (fun _ : String => Record)
  log : List Command
  reqCookies : Fields
  respCookies : AList (fun _ : String => Cookie)
  locals : AList (fun _ : String => Local)

/-- The middleware configuration (`Store` is the Redis-backed `SessionManager`). -/
structure SessionMiddlewareConfig where
  CookieName : String
  Secure : Bool
  SessionDuration : Int
  RegenerateAfter : Int

/-! ### Redis commands

A command that fails is logged and changes nothing. -/

/-- The world after `cmd` was sent. -/
def World.sent (w : World) (cmd : Command) : World :=
  { w with log := w.log ++ [cmd] }

/-- Whether the next command fails. -/
def Env.nextFails (env : Env) (w : World) : Bool := env.faults w.log.length

/-- The error of the next command when it fails. -/
def World.failure (w : World) : GoError := GoError.backend w.log.length

/-- The hash after `HSET`: the listed fields are set over the old ones; a new hash has
no expiration, an existing one keeps its own. -/
def hsetRecord (old : Option Record) (values : Fields) : Record :=
  match old with
  | some r => { r with fields := values ∪ r.fields }
  | none => { fields := values, ttl := none }

/-- Command `HSET key field value ...`: sets the listed fields, creating the hash
when the key is new; the expiration of an existing key is kept. -/
def redisHSet (env : Env) (w : World) (key : String) (values : Fields) :
    World × Option GoError :=
  if env.nextFails w then (w.sent (.HSet key values), some w.failure)
  else
    ({ w.sent (.HSet key values) with
        records := w.records.insert key (hsetRecord (w.records.lookup key) values) }, none)

/-- Command `HGETALL key`: all fields of the hash, the empty map for a missing key. -/
def redisHGetAll (env : Env) (w : World) (key : String) :
    World × Fields × Option GoError :=
  if env.nextFails w then (w.sent (.HGetAll key), ∅, some w.failure)
  else
    match w.records.lookup key with
    | some r => (w.sent (.HGetAll key), r.fields, none)
    | none => (w.sent (.HGetAll key), ∅, none)

/-- Command `HGET key field`: the value of the field, `redis.Nil` when the key or the
field is missing. -/
def redisHGet (env : Env) (w : World) (key field : String) :
    World × String × Option GoError :=
  if env.nextFails w then (w.sent (.HGet key field), "", some w.failure)
  else
    match w.records.lookup key with
    | some r =>
      match r.fields.lookup field with
      | some v => (w.sent (.HGet key field), v, none)
      | none => (w.sent (.HGet key field), "", some .redisNil)
    | none => (w.sent (.HGet key field), "", some .redisNil)

/-- The function `formatSec` of go-redis, which gives the argument of `EXPIRE`: the
duration in whole seconds, rounded toward zero, and one second for a positive
duration shorter than a second. -/
def formatSec (dur : Int) : Int :=
  if 0 < dur ∧ dur < Second then 1 else Int.tdiv dur Second

/-- The backend contents after `EXPIRE key seconds` with `seconds = formatSec
expiration`: an existing key gets that time to live (kept as a duration), or is
deleted when `seconds` is not positive; a missing key stays missing. -/
def expireRecords (records : AList (fun _ : String => Record)) (key : String)
    (expiration : Int) : AList (fun _ : String => Record) :=
  match records.lookup key with
  | some r =>
    if formatSec expiration ≤ 0 then records.erase key
    else records.insert key { r with ttl := some (formatSec expiration * Second) }
  | none => records

/-- Method `Expire` of the go-redis client, which sends `EXPIRE key seconds`: sets the
time to live of an existing key (a time that is not positive deletes the key);
nothing happens for a missing key. The call is logged with its duration. -/
def redisExpire (env : Env) (w : World) (key : String) (expiration : Int) :
    World × Option GoError :=
  if env.nextFails w then (w.sent (.Expire key expiration), some w.failure)
  else
    ({ w.sent (.Expire key expiration) with
        records := expireRecords w.records key expiration }, none)

/-- Command `DEL key`: removes the key; no error when it is missing. -/
def redisDel (env : Env) (w : World) (key : String) : World × Option GoError :=
  if env.nextFails w then (w.sent (.Del key), some w.failure)
  else ({ w.sent (.Del key) with records := w.records.erase key }, none)

/-! ### pkg/session/store.go: the methods of `SessionManager` used by the middleware -/

/-- The key of a session in the backend, `"session:" + sessionID`. -/
def fullKey (sessionID : String) : String := "session:" ++ sessionID

/-- Method `SessionManager.Clear`. -/
def Store.Clear (env : Env) (w : World) (sessionID : String) : World × Option GoError :=
  redisDel env w (fullKey sessionID)

/-- Method `SessionManager.HSet`. -/
def Store.HSet (env : Env) (w : World) (sessionID : String) (values : Fields) :
    World × Option GoError :=
  redisHSet env w (fullKey sessionID) values

/-- Method `SessionManager.HGetAll`. -/
def Store.HGetAll (env : Env) (w : World) (sessionID : String) :
    World × Fields × Option GoError :=
  redisHGetAll env w (fullKey sessionID)

/-- Method `SessionManager.HGet`. -/
def Store.HGet (env : Env) (w : World) (sessionID key : String) :
    World × String × Option GoError :=
  redisHGet env w (fullKey sessionID) key

/-- Method `SessionManager.Expire`. -/
def Store.Expire (env : Env) (w : World) (sessionID : String) (expiration : Int) :
    World × Option GoError :=
  redisExpire env w (fullKey sessionID) expiration

/-! ### The Fiber context -/

/-- Method `Ctx.Cookies(name)`: the cookie of the request, `""` when there is none. -/
def World.Cookies (c : World) (name : String) : String :=
  (c.reqCookies.lookup name).getD ""

/-- Method `Ctx.Cookie(cookie)`: sets a cookie of the response. -/
def World.Cookie (c : World) (cookie : Cookie) : World :=
  { c with respCookies := c.respCookies.insert cookie.Name cookie }

/-- Method `Ctx.Locals(key, value)`: stores a local. -/
def World.setLocals (c : World) (key : String) (value : Local) : World :=
  { c with locals := c.locals.insert key value }

/-- Method `Ctx.Locals(key)`: the local, `none` (Go: `nil`) when there is none. -/
def World.Locals (c : World) (key : String) : Option Local :=
  c.locals.lookup key

/-! ## pkg/session/session.go -/

/-- The function `generateSessionID`. -/
def generateSessionID (env : Env) : String × Option GoError :=
  let bytes := (List.range 32).map (fun i => env.randBytes i % 256)
  match env.randErr with
  | some err => ("", some err)
  | none => (hexEncodeToString bytes, none)

/-- The function `GetOrCreateSessionID`; the result is
`(context, sessionID, isNew, err)`. -/
def GetOrCreateSessionID (env : Env) (c : World) (cookieName : String) (secure : Bool)
    (sessionDuration : Int) : World × String × Bool × Option GoError :=
  let cookie := c.Cookies cookieName
  if cookie ≠ "" then (c, cookie, false, none)
  else
    match generateSessionID env with
    | (_, some err) => (c, "", false, some err)
    | (sessionID, none) =>
      let c := c.Cookie
        { Name := cookieName, Value := sessionID, HTTPOnly := true, Secure := secure,
          SameSite := "Lax", Path := "/", Expires := env.now + sessionDuration }
      (c, sessionID, true, none)

/-- The function `rotateSessionID`. -/
def rotateSessionID (env : Env) (c : World) (config : SessionMiddlewareConfig)
    (oldSessionID : String) : World × String × Option GoError :=
  match Store.HGetAll env c oldSessionID with
  | (c, _, some err) => (c, "", some err)
  | (c, oldData, none) =>
    match generateSessionID env with
    | (_, some err) => (c, "", some err)
    | (newSessionID, none) =>
      let oldData := oldData.insert "created_at" (FormatInt (unixSeconds env.now))
      match Store.HSet env c newSessionID oldData with
      | (c, some err) => (c, "", some err)
      | (c, none) =>
        match Store.Expire env c newSessionID config.SessionDuration with
        | (c, some err) => (c, "", some err)
        | (c, none) =>
          let c := (Store.Clear env c oldSessionID).1
          let c := c.Cookie
            { Name := config.CookieName, Value := newSessionID, HTTPOnly := true,
              Secure := config.Secure, SameSite := "Lax", Path := "/",
              Expires := env.now + config.SessionDuration }
          (c, newSessionID, none)

/-- The handler returned by `NewSessionMiddleware`; `next` is the rest of the handler
chain, run by `c.Next()`. -/
def NewSessionMiddleware (config : SessionMiddlewareConfig) (env : Env)
    (next : World → World × Option GoError) (c : World) : World × Option GoError :=
  match GetOrCreateSessionID env c config.CookieName config.Secure
      config.SessionDuration with
  | (c, _, _, some _) => (c, some .ErrInternalServerError)
  | (c, sessionID, true, none) =>
    match Store.HSet env c sessionID
        (AList.singleton "created_at" (FormatInt (unixSeconds env.now))) with
    | (c, some _) => (c, some .ErrInternalServerError)
    | (c, none) => next (c.setLocals "session_id" (.str sessionID))
  | (c, sessionID, false, none) =>
    match Store.Expire env c sessionID config.SessionDuration with
    | (c, some _) => (c, some .ErrInternalServerError)
    | (c, none) =>
      match Store.HGet env c sessionID "created_at" with
      | (c, _, some _) => next (c.setLocals "session_id" (.str sessionID))
      | (c, createdAtStr, none) =>
        match ParseInt createdAtStr with
        | none => next (c.setLocals "session_id" (.str sessionID))
        | some createdAtUnix =>
          if timeSince env.now (timeUnix createdAtUnix) > config.RegenerateAfter then
            match rotateSessionID env c config sessionID with
            | (c, _, some _) => (c, some .ErrInternalServerError)
            | (c, newSessionID, none) =>
              next (c.setLocals "session_id" (.str newSessionID))
          else next (c.setLocals "session_id" (.str sessionID))

/-- The function `GetSessionID`. -/
def GetSessionID (c : World) : String × Option GoError :=
  match c.Locals "session_id" with
  | none => ("", some .ErrUnauthorized)
  | some (.other _) => ("", some .ErrUnauthorized)
  | some (.str sessionID) =>
    if sessionID = "" then ("", some .ErrUnauthorized) else (sessionID, none)

/-- The function `MustGetSessionID`; a panic is `Except.error` of its message. -/
def MustGetSessionID (c : World) : Except String String :=
  match GetSessionID c with
  | (_, some _) => .error "missing session ID"
  | (sessionID, none) => .ok sessionID

/-! ## pkg/logx/logx.go -/

/-- The constant `LOG_ERROR`. -/
def LOG_ERROR : Int := 0

/-- The constant `LOG_WARN`. -/
def LOG_WARN : Int := 1

/-- The constant `LOG_INFO`. -/
def LOG_INFO : Int := 2

/-- The constant `LOG_DEBUG`. -/
def LOG_DEBUG : Int := 3

/-- One call of `log.Printf`: its format and its arguments (the line written is the
formatted message). -/
structure LogCall where
  format : String
  args : List String
  deriving DecidableEq

/-- The state of package `logx`: the variable `currentLevel` and the calls of
`log.Printf` made so far, oldest first. -/
structure LogState where
  currentLevel : Int
  written : List LogCall

/-- The state when the package is loaded: `var currentLevel = LOG_INFO`. -/
def LogState.initial : LogState := { currentLevel := LOG_INFO, written := [] }

/-- What `SetLogLevel` reads from outside the program: the result of
`os.Getenv("LOG_LEVEL")` (the empty string when the variable is not set) and the part
of the table `unicode.ToUpper` that the program does not fix: the upper case of the
characters outside ASCII other than U+0131 and U+017F, which is outside ASCII too. -/
structure LogEnv where
  LOG_LEVEL : String
  upperOther : Char → Char
  upperOther_outside : ∀ c : Char, 128 ≤ c.toNat → 128 ≤ (upperOther c).toNat

/-- The character U+0131, the small dotless i. -/
def dotlessI : Char := Char.ofNat 305

/-- The character U+017F, the small long s. -/
def longS : Char := Char.ofNat 383

/-- The function `unicode.ToUpper`: in ASCII the letters `a` to `z` become `A` to `Z`
and every other character is kept; outside ASCII, U+0131 becomes `I`, U+017F becomes
`S` and the upper case of any other character is taken from the table. -/
def unicodeToUpper (upperOther : Char → Char) (c : Char) : Char :=
  if c.toNat < 128 then
    if 97 ≤ c.toNat ∧ c.toNat ≤ 122 then Char.ofNat (c.toNat - 32) else c
  else if c = dotlessI then 'I'
  else if c = longS then 'S'
  else upperOther c

/-- The function `strings.ToUpper`: every character replaced by its upper case. -/
def ToUpper (upper : Char → Char) (s : String) : String :=
  String.mk (s.data.map upper)

/-- The function `log.Printf`. -/
def logPrintf (st : LogState) (format : String) (args : List String) : LogState :=
  { st with written := st.written ++ [{ format := format, args := args }] }

/-- The function `SetLogLevel` of `pkg/logx/logx.go`. -/
def SetLogLevel (env : LogEnv) (st : LogState) : LogState :=
  let levelStr := ToUpper (unicodeToUpper env.upperOther) env.LOG_LEVEL
  if levelStr = "ERROR" then { st with currentLevel := LOG_ERROR }
  else if levelStr = "WARN" then { st with currentLevel := LOG_WARN }
  else if levelStr = "INFO" then { st with currentLevel := LOG_INFO }
  else if levelStr = "DEBUG" then { st with currentLevel := LOG_DEBUG }
  else if levelStr = "" then { st with currentLevel := LOG_INFO }
  else
    logPrintf { st with currentLevel := LOG_INFO }
      "[WARN] Invalid LOG_LEVEL '%s'; defaulting to LOG_INFO" [levelStr]

/-- The function `logf` of `pkg/logx/logx.go`; `label` is its parameter `prefix`. -/
def logf (st : LogState) (level : Int) (label format : String) (args : List String) :
    LogState :=
  if level ≤ st.currentLevel then logPrintf st ("[" ++ label ++ "] " ++ format) args
  else st

/-- The function `Error` of `pkg/logx/logx.go`. -/
def Error (st : LogState) (format : String) (args : List String) : LogState :=
  logf st LOG_ERROR "ERROR" format args

/-- The function `Warn` of `pkg/logx/logx.go`. -/
def Warn (st : LogState) (format : String) (args : List String) : LogState :=
  logf st LOG_WARN "WARN" format args

/-- The function `Info` of `pkg/logx/logx.go`. -/
def Info (st : LogState) (format : String) (args : List String) : LogState :=
  logf st LOG_INFO "INFO" format args

/-- The function `Debug` of `pkg/logx/logx.go`. -/
def Debug (st : LogState) (format : String) (args : List String) : LogState :=
  logf st LOG_DEBUG "DEBUG" format args

/-- The value of `LOG_LEVEL` in upper case, as `SetLogLevel` compares it. -/
def levelName (env : LogEnv) : String :=
  ToUpper (unicodeToUpper env.upperOther) env.LOG_LEVEL

/-- The value of `LOG_LEVEL` is, up to case, one of the four level names. -/
def recognisedLevel (env : LogEnv) : Prop :=
  levelName env = "ERROR" ∨ levelName env = "WARN" ∨ levelName env = "INFO" ∨
    levelName env = "DEBUG"

/-- The warning of `SetLogLevel` about an invalid level. -/
def invalidLevelWarning (env : LogEnv) : LogCall :=
  { format := "[WARN] Invalid LOG_LEVEL '%s'; defaulting to LOG_INFO",
    args := [levelName env] }

/-- An environment with `LOG_LEVEL = value`, for a value written with ASCII
characters, U+0131 and U+017F: no other character is looked up in the table, which is
left as the identity. -/
def logEnv (value : String) : LogEnv :=
  { LOG_LEVEL := value, upperOther := fun c => c, upperOther_outside := fun _ h => h }

/-- The character `c` is the capital letter `capital` or its small letter. -/
def sameAsciiLetter (c capital : Char) : Bool :=
  c == capital || c.toNat == capital.toNat + 32

/-- The character `c` is the capital letter `capital` up to case: the capital, its
small letter, or one of the two small letters outside ASCII that have their upper
case in ASCII (the dotless i for `I`, the long s for `S`). -/
def sameLetter (c capital : Char) : Bool :=
  sameAsciiLetter c capital || (capital == 'I' && c == dotlessI) ||
    (capital == 'S' && c == longS)

/-- The text `l` spells the capitals `capitals`, letter by letter, up to `same`. -/
def spells (same : Char → Char → Bool) : List Char → List Char → Bool
  | [], [] => true
  | c :: cs, capital :: rest => same c capital && spells same cs rest
  | _, _ => false

/-- The value equals the level name `name` (written in capitals) case-insensitively. -/
def namesLevel (value name : String) : Bool := spells sameLetter value.data name.data

/-- The value equals the level name `name` case-insensitively, ASCII letters only. -/
def namesLevelAscii (value name : String) : Bool :=
  spells sameAsciiLetter value.data name.data

/-- The value of `LOG_LEVEL` equals one of the four level names case-insensitively. -/
def namesSomeLevel (value : String) : Bool :=
  namesLevel value "ERROR" || namesLevel value "WARN" || namesLevel value "INFO" ||
    namesLevel value "DEBUG"

/-! ## A sample run -/

/-- A request context with nothing in it. -/
def emptyWorld : World :=
  { records := ∅, log := [], reqCookies := ∅, respCookies := ∅, locals := ∅ }

/-- An environment in which nothing fails: the clock reads `now` seconds, the random
source delivers the bytes `seed, seed + 1, ...`. -/
def calmEnv (now : Int) (seed : Nat) : Env :=
  { now := now * Second, randErr := none, randBytes := fun i => seed + i,
    faults := fun _ => false }

/-- The end of the handler chain. -/
def done (c : World) : World × Option GoError := (c, none)

/-- A later request on the same backend that presents `token` in the cookie `name`. -/
def World.returning (w : World) (name token : String) : World :=
  { w with reqCookies := AList.singleton name token, respCookies := ∅, locals := ∅ }

/-- The configuration of the sample scenario: one hour, rotation after 30 minutes. -/
def sampleConfig : SessionMiddlewareConfig :=
  { CookieName := "sid", Secure := true, SessionDuration := 3600 * Second,
    RegenerateAfter := 1800 * Second }

/-- The identifier generated from the random bytes `0, 1, ..., 31`. -/
def sampleID : String := "000102030405060708090a0b0c0d0e0f101112131415161718191a1b1c1d1e1f"

/-- The sample scenario: a session is created at second 0 on an empty backend, the
application stores a field `user` in it, and the client comes back with the cookie. -/
def sampleWorld : World :=
  ((Store.HSet (calmEnv 0 0)
      (NewSessionMiddleware sampleConfig (calmEnv 0 0) done emptyWorld).1 sampleID
      (AList.singleton "user" "alice")).1).returning "sid" sampleID

/-! ## Definitions used in the statements -/

/-- The cookie that carries a session identifier. -/
def sessionCookie (name : String) (secure : Bool) (value : String) (expires : Int) :
    Cookie :=
  { Name := name, Value := value, HTTPOnly := true, Secure := secure, SameSite := "Lax",
    Path := "/", Expires := expires }

/-- The state handed to the next handler on the path of a new session. -/
def newSessionWorld (config : SessionMiddlewareConfig) (env : Env) (c : World) : World :=
  ((Store.HSet env
      (c.Cookie (sessionCookie config.CookieName config.Secure (generateSessionID env).1
        (env.now + config.SessionDuration)))
      (generateSessionID env).1
      (AList.singleton "created_at" (FormatInt (unixSeconds env.now)))).1).setLocals
    "session_id" (Local.str (generateSessionID env).1)

/-- The state after the refresh `Expire` of the presented token succeeded. -/
def refreshed (config : SessionMiddlewareConfig) (c : World) : World :=
  { c with
    log := c.log ++
      [Command.Expire (fullKey (c.Cookies config.CookieName)) config.SessionDuration]
    records := expireRecords c.records (fullKey (c.Cookies config.CookieName))
      config.SessionDuration }

/-- The state after the refresh and the `HGet` of `created_at`. -/
def lookedUp (config : SessionMiddlewareConfig) (c : World) : World :=
  { refreshed config c with
    log := c.log ++
      [Command.Expire (fullKey (c.Cookies config.CookieName)) config.SessionDuration,
        Command.HGet (fullKey (c.Cookies config.CookieName)) "created_at"] }

/-- The field `created_at` of the presented token in the backend. -/
def storedCreatedAt (config : SessionMiddlewareConfig) (c : World) : Option String :=
  (c.records.lookup (fullKey (c.Cookies config.CookieName))).bind
    (fun r => r.fields.lookup "created_at")

/-- The rest of the handler after `rotateSessionID` returned. -/
def afterRotation (next : World → World × Option GoError)
    (r : World × String × Option GoError) : World × Option GoError :=
  match r with
  | (c, _, some _) => (c, some GoError.ErrInternalServerError)
  | (c, newSessionID, none) => next (c.setLocals "session_id" (Local.str newSessionID))

/-- The field set that rotation writes: the fields of the old session with
`created_at` overwritten by the current Unix time. -/
def rotatedData (env : Env) (c : World) (oldSessionID : String) : Fields :=
  (((c.records.lookup (fullKey oldSessionID)).map Record.fields).getD ∅).insert
    "created_at" (FormatInt (unixSeconds env.now))

/-- The backend contents after the `HSet` of rotation. -/
def writtenRecords (env : Env) (c : World) (oldSessionID : String) :
    AList (fun _ : String => Record) :=
  c.records.insert (fullKey (generateSessionID env).1)
    (hsetRecord (c.records.lookup (fullKey (generateSessionID env).1))
      (rotatedData env c oldSessionID))

/-- The commands of a rotation, in order. -/
def rotationCommands (env : Env) (c : World) (config : SessionMiddlewareConfig)
    (oldSessionID : String) : List Command :=
  [Command.HGetAll (fullKey oldSessionID),
    Command.HSet (fullKey (generateSessionID env).1) (rotatedData env c oldSessionID),
    Command.Expire (fullKey (generateSessionID env).1) config.SessionDuration,
    Command.Del (fullKey oldSessionID)]

/-- A rotation started in state `c` in which `HGetAll` on the old token, the
generation of the identifier, `HSet` on the new identifier or `Expire` on the new
identifier fails: these are the commands number `c.log.length`, `+ 1` and `+ 2`. -/
def rotationStepFails (env : Env) (c : World) : Prop :=
  env.faults c.log.length = true ∨ env.randErr ≠ none ∨
    env.faults (c.log.length + 1) = true ∨ env.faults (c.log.length + 2) = true

/-- The sample session with `created_at` overwritten by `value`, presented again. -/
def sampleWorldCreatedAt (value : String) : World :=
  (Store.HSet (calmEnv 0 0) sampleWorld sampleID (AList.singleton "created_at" value)).1

/-- The sample configuration with another `SessionDuration`. -/
def sampleConfigLasting (duration : Int) : SessionMiddlewareConfig :=
  { sampleConfig with SessionDuration := duration }

/-- The sample configuration with the largest duration as `RegenerateAfter`. -/
def sampleConfigNeverRotating : SessionMiddlewareConfig :=
  { sampleConfig with RegenerateAfter := maxDuration }

/-- An environment at second 1801 whose random source delivers the bytes of
`sampleID` again and in which only the command number 4 fails. -/
def collidingEnv : Env :=
  { now := 1801 * Second, randErr := none, randBytes := fun i => i,
    faults := fun i => decide (i = 4) }

/-- An ASCII letter, a digit, an underscore or a space. -/
def isPlain (c : Char) : Bool :=
  c.isAlpha || c.isDigit || c == '_' || c == ' '

/-- The text with one backslash put immediately before each character that is not
plain, every other character kept, in the original order. -/
def backslashBeforeSpecial : List Char → List Char
  | [] => []
  | c :: rest =>
    if isPlain c then c :: backslashBeforeSpecial rest
    else '\\' :: c :: backslashBeforeSpecial rest

/-- The text without its escaping backslashes: a backslash is dropped and the
character after it is kept. -/
def dropEscapes : List Char → List Char
  | [] => []
  | [c] => [c]
  | c :: d :: rest => if c = '\\' then d :: dropEscapes rest else c :: dropEscapes (d :: rest)

/-- A lowercase hexadecimal digit. -/
def isLowerHex (c : Char) : Bool :=
  (decide ('0' ≤ c) && decide (c ≤ '9')) || (decide ('a' ≤ c) && decide (c ≤ 'f'))

/-! ## Lemmas on the backend commands -/

theorem hsetRecord_ttl (old : Option Record) (values : Fields) :
    (hsetRecord old values).ttl = old.bind Record.ttl := by
  cases old <;> rfl

theorem hsetRecord_lookup_mem (old : Option Record) (values : Fields) (f : String)
    (h : f ∈ values) : (hsetRecord old values).fields.lookup f = values.lookup f := by
  cases old with
  | none => rfl
  | some r => exact AList.lookup_union_left h

theorem hsetRecord_lookup_not_mem (old : Option Record) (values : Fields) (f : String)
    (h : f ∉ values) :
    (hsetRecord old values).fields.lookup f = old.bind (fun r => r.fields.lookup f) := by
  cases old with
  | none => simpa [hsetRecord] using AList.lookup_eq_none.mpr h
  | some r => exact AList.lookup_union_right h

theorem lookup_singleton_self (k v : String) :
    (AList.singleton k v : Fields).lookup k = some v := by
  simp [AList.singleton, AList.lookup]

theorem mem_singleton_self (k v : String) : k ∈ (AList.singleton k v : Fields) := by
  rw [← AList.lookup_isSome, lookup_singleton_self]; rfl

theorem fullKey_injective {a b : String} (h : fullKey a = fullKey b) : a = b := by
  have h' := congrArg String.data h
  simp only [fullKey, String.data_append] at h'
  exact String.ext (List.append_cancel_left h')

theorem Store.HSet_ok (env : Env) (w : World) (sessionID : String) (values : Fields)
    (h : env.faults w.log.length = false) :
    Store.HSet env w sessionID values =
      ({ w with
          log := w.log ++ [Command.HSet (fullKey sessionID) values]
          records := w.records.insert (fullKey sessionID)
            (hsetRecord (w.records.lookup (fullKey sessionID)) values) }, none) := by
  simp [Store.HSet, redisHSet, Env.nextFails, World.sent, h]

theorem Store.HSet_fail (env : Env) (w : World) (sessionID : String) (values : Fields)
    (h : env.faults w.log.length = true) :
    Store.HSet env w sessionID values =
      ({ w with log := w.log ++ [Command.HSet (fullKey sessionID) values] },
        some (GoError.backend w.log.length)) := by
  simp [Store.HSet, redisHSet, Env.nextFails, World.sent, World.failure, h]

theorem Store.Expire_ok (env : Env) (w : World) (sessionID : String) (d : Int)
    (h : env.faults w.log.length = false) :
    Store.Expire env w sessionID d =
      ({ w with
          log := w.log ++ [Command.Expire (fullKey sessionID) d]
          records := expireRecords w.records (fullKey sessionID) d }, none) := by
  simp [Store.Expire, redisExpire, Env.nextFails, World.sent, h]

theorem formatSec_pos (d : Int) (h : 0 < d) : 0 < formatSec d := by
  unfold formatSec
  split
  · exact Int.one_pos
  · rename_i hlt
    have hge : Second ≤ d := by
      by_contra hc
      exact hlt ⟨h, not_le.mp hc⟩
    rw [Int.tdiv_eq_ediv (le_of_lt h) (by decide)]
    simp only [Second] at hge ⊢
    omega

theorem formatSec_nonpos (d : Int) (h : d ≤ 0) : formatSec d ≤ 0 := by
  unfold formatSec
  have hlt : ¬ (0 < d ∧ d < Second) := fun hh => absurd hh.1 (not_lt.mpr h)
  rw [if_neg hlt]
  have e : Int.tdiv d Second = -(Int.tdiv (-d) Second) := by
    rw [Int.neg_tdiv, neg_neg]
  rw [e, Int.tdiv_eq_ediv (by omega) (by decide)]
  simp only [Second]
  omega

theorem formatSec_whole (d : Int) (h : 0 < d) (hw : d % Second = 0) :
    formatSec d * Second = d := by
  unfold formatSec
  split
  · rename_i hlt
    simp only [Second] at hlt hw
    omega
  · rw [Int.tdiv_eq_ediv (le_of_lt h) (by decide)]
    simp only [Second] at hw ⊢
    omega

theorem formatSec_bounds (d : Int) (h : Second ≤ d) :
    formatSec d * Second ≤ d ∧ d < formatSec d * Second + Second := by
  unfold formatSec
  have hlt : ¬ (0 < d ∧ d < Second) := fun hh => absurd hh.2 (not_lt.mpr h)
  rw [if_neg hlt, Int.tdiv_eq_ediv (by simp only [Second] at h; omega) (by decide)]
  simp only [Second] at h ⊢
  omega

theorem expireRecords_fields (records : AList (fun _ : String => Record))
    (key key' : String) (d : Int) (hpos : 0 < formatSec d) :
    ((expireRecords records key d).lookup key').map Record.fields =
      (records.lookup key').map Record.fields := by
  unfold expireRecords
  cases h : records.lookup key with
  | none => simp
  | some r =>
    simp only [if_neg (not_le.mpr hpos)]
    by_cases hk : key' = key
    · subst hk; simp [h]
    · simp [AList.lookup_insert_ne hk]

theorem expireRecords_ttl (records : AList (fun _ : String => Record))
    (key : String) (d : Int) (hpos : 0 < formatSec d) :
    ((expireRecords records key d).lookup key).map Record.ttl =
      (records.lookup key).map (fun _ => some (formatSec d * Second)) := by
  unfold expireRecords
  cases h : records.lookup key with
  | none => simp [h]
  | some r => simp [if_neg (not_le.mpr hpos)]

theorem expireRecords_other (records : AList (fun _ : String => Record))
    (key key' : String) (d : Int) (hk : key' ≠ key) :
    (expireRecords records key d).lookup key' = records.lookup key' := by
  unfold expireRecords
  cases h : records.lookup key with
  | none => simp
  | some r =>
    by_cases hle : formatSec d ≤ 0
    · simp only [if_pos hle]
      exact AList.lookup_erase_ne hk
    · simp only [if_neg hle]
      exact AList.lookup_insert_ne hk

theorem expireRecords_deleted (records : AList (fun _ : String => Record))
    (key : String) (d : Int) (hle : formatSec d ≤ 0) :
    (expireRecords records key d).lookup key = none := by
  unfold expireRecords
  cases h : records.lookup key with
  | none => simpa using h
  | some r => simp [if_pos hle]

theorem expireRecords_read (records : AList (fun _ : String => Record))
    (key f v : String) (d : Int)
    (h : ((expireRecords records key d).lookup key).bind (fun r => r.fields.lookup f) =
      some v) :
    0 < formatSec d ∧ (records.lookup key).bind (fun r => r.fields.lookup f) = some v := by
  by_cases hpos : 0 < formatSec d
  · refine ⟨hpos, ?_⟩
    have hf := expireRecords_fields records key key d hpos
    cases h1 : (expireRecords records key d).lookup key <;>
      cases h2 : records.lookup key <;> simp_all
  · rw [expireRecords_deleted records key d (not_lt.mp hpos)] at h
    simp at h

theorem expireRecords_read_none (records : AList (fun _ : String => Record))
    (key f : String) (d : Int)
    (h : (records.lookup key).bind (fun r => r.fields.lookup f) = none) :
    ((expireRecords records key d).lookup key).bind (fun r => r.fields.lookup f) = none := by
  cases h' : ((expireRecords records key d).lookup key).bind (fun r => r.fields.lookup f) with
  | none => rfl
  | some v =>
    have := (expireRecords_read records key f v d h').2
    rw [h] at this
    simp at this

theorem Store.HGet_read (env : Env) (w : World) (sessionID key s : String)
    (h : (Store.HGet env w sessionID key).2 = (s, none)) :
    env.faults w.log.length = false ∧
      (w.records.lookup (fullKey sessionID)).bind (fun r => r.fields.lookup key) = some s := by
  simp only [Store.HGet, redisHGet, Env.nextFails] at h
  cases hf : env.faults w.log.length with
  | true => simp [hf] at h
  | false =>
    refine ⟨rfl, ?_⟩
    simp only [hf, Bool.false_eq_true, if_false] at h
    cases hr : w.records.lookup (fullKey sessionID) with
    | none => simp [hr] at h
    | some r =>
      simp only [hr] at h
      cases hv : r.fields.lookup key with
      | none => simp [hv] at h
      | some v =>
        simp only [hv, Prod.mk.injEq, and_true] at h
        simp [hv, h]

theorem Store.HGet_ok (env : Env) (w : World) (sessionID key v : String)
    (h : env.faults w.log.length = false)
    (hv : (w.records.lookup (fullKey sessionID)).bind (fun r => r.fields.lookup key) =
      some v) :
    Store.HGet env w sessionID key =
      ({ w with log := w.log ++ [Command.HGet (fullKey sessionID) key] }, v, none) := by
  simp only [Store.HGet, redisHGet, Env.nextFails, World.sent, h]
  cases hr : w.records.lookup (fullKey sessionID) with
  | none => simp [hr] at hv
  | some r =>
    have hv' : r.fields.lookup key = some v := by simpa [hr] using hv
    simp [hv']

theorem Store.HGet_err (env : Env) (w : World) (sessionID key : String)
    (h : env.faults w.log.length = true ∨
      (w.records.lookup (fullKey sessionID)).bind (fun r => r.fields.lookup key) = none) :
    ∃ e, Store.HGet env w sessionID key =
      ({ w with log := w.log ++ [Command.HGet (fullKey sessionID) key] }, "", some e) := by
  simp only [Store.HGet, redisHGet, Env.nextFails, World.sent]
  by_cases hf : env.faults w.log.length = true
  · exact ⟨w.failure, by simp [hf]⟩
  · have hv := h.resolve_left hf
    refine ⟨GoError.redisNil, ?_⟩
    cases hr : w.records.lookup (fullKey sessionID) with
    | none => simp [hf]
    | some r =>
      have hv' : r.fields.lookup key = none := by simpa [hr] using hv
      simp [hf, hv']

theorem Store.Expire_fail (env : Env) (w : World) (sessionID : String) (d : Int)
    (h : env.faults w.log.length = true) :
    Store.Expire env w sessionID d =
      ({ w with log := w.log ++ [Command.Expire (fullKey sessionID) d] },
        some (GoError.backend w.log.length)) := by
  simp [Store.Expire, redisExpire, Env.nextFails, World.sent, World.failure, h]

theorem Store.HGetAll_ok (env : Env) (w : World) (sessionID : String)
    (h : env.faults w.log.length = false) :
    Store.HGetAll env w sessionID =
      ({ w with log := w.log ++ [Command.HGetAll (fullKey sessionID)] },
        ((w.records.lookup (fullKey sessionID)).map Record.fields).getD ∅, none) := by
  simp only [Store.HGetAll, redisHGetAll, Env.nextFails, World.sent, h]
  cases w.records.lookup (fullKey sessionID) <;> simp

theorem Store.HGetAll_fail (env : Env) (w : World) (sessionID : String)
    (h : env.faults w.log.length = true) :
    Store.HGetAll env w sessionID =
      ({ w with log := w.log ++ [Command.HGetAll (fullKey sessionID)] }, ∅,
        some (GoError.backend w.log.length)) := by
  simp [Store.HGetAll, redisHGetAll, Env.nextFails, World.sent, World.failure, h]

theorem Store.HGet_world (env : Env) (w : World) (sessionID key : String) :
    (Store.HGet env w sessionID key).1 =
      { w with log := w.log ++ [Command.HGet (fullKey sessionID) key] } := by
  simp only [Store.HGet, redisHGet, World.sent]
  split
  · rfl
  · split
    · split <;> rfl
    · rfl

theorem Store.Clear_world (env : Env) (w : World) (sessionID : String) :
    (Store.Clear env w sessionID).1 =
      { w with
        log := w.log ++ [Command.Del (fullKey sessionID)]
        records := if env.faults w.log.length then w.records
          else w.records.erase (fullKey sessionID) } := by
  simp only [Store.Clear, redisDel, Env.nextFails, World.sent]
  split <;> simp_all

/-! ## Lemmas on the paths of the handler -/

theorem generateSessionID_ok (env : Env) (h : env.randErr = none) :
    generateSessionID env =
      (hexEncodeToString ((List.range 32).map (fun i => env.randBytes i % 256)), none) := by
  simp [generateSessionID, h]

theorem generateSessionID_fail (env : Env) (e : GoError) (h : env.randErr = some e) :
    generateSessionID env = ("", some e) := by
  simp [generateSessionID, h]

theorem GetOrCreateSessionID_present (env : Env) (c : World) (name : String)
    (secure : Bool) (d : Int) (h : c.Cookies name ≠ "") :
    GetOrCreateSessionID env c name secure d = (c, c.Cookies name, false, none) := by
  simp [GetOrCreateSessionID, h]

theorem GetOrCreateSessionID_new (env : Env) (c : World) (name : String)
    (secure : Bool) (d : Int) (h : c.Cookies name = "") (hrand : env.randErr = none) :
    GetOrCreateSessionID env c name secure d =
      (c.Cookie (sessionCookie name secure (generateSessionID env).1 (env.now + d)),
        (generateSessionID env).1, true, none) := by
  simp [GetOrCreateSessionID, h, generateSessionID_ok env hrand, sessionCookie]

theorem middleware_new (config : SessionMiddlewareConfig) (env : Env)
    (next : World → World × Option GoError) (c : World)
    (hcookie : c.Cookies config.CookieName = "") (hrand : env.randErr = none)
    (hset : env.faults c.log.length = false) :
    NewSessionMiddleware config env next c = next (newSessionWorld config env c) := by
  have hset' : env.faults (c.Cookie (sessionCookie config.CookieName config.Secure
      (generateSessionID env).1 (env.now + config.SessionDuration))).log.length = false := hset
  simp only [NewSessionMiddleware, GetOrCreateSessionID_new env c _ _ _ hcookie hrand,
    newSessionWorld, Store.HSet_ok env _ _ _ hset']

theorem refreshed_read (config : SessionMiddlewareConfig) (c : World) (s : String)
    (h : ((refreshed config c).records.lookup (fullKey (c.Cookies config.CookieName))).bind
        (fun r => r.fields.lookup "created_at") = some s) :
    0 < formatSec config.SessionDuration ∧ storedCreatedAt config c = some s :=
  expireRecords_read c.records _ "created_at" s config.SessionDuration h

theorem refreshed_read_none (config : SessionMiddlewareConfig) (c : World)
    (h : storedCreatedAt config c = none) :
    ((refreshed config c).records.lookup (fullKey (c.Cookies config.CookieName))).bind
        (fun r => r.fields.lookup "created_at") = none :=
  expireRecords_read_none c.records _ "created_at" config.SessionDuration h

theorem middleware_expire_fail (config : SessionMiddlewareConfig) (env : Env)
    (next : World → World × Option GoError) (c : World)
    (htoken : c.Cookies config.CookieName ≠ "")
    (hexpire : env.faults c.log.length = true) :
    NewSessionMiddleware config env next c =
      ({ c with log := c.log ++
          [Command.Expire (fullKey (c.Cookies config.CookieName)) config.SessionDuration] },
        some GoError.ErrInternalServerError) := by
  simp only [NewSessionMiddleware, GetOrCreateSessionID_present env c _ _ _ htoken,
    Store.Expire_fail env _ _ _ hexpire]

theorem middleware_refreshed (config : SessionMiddlewareConfig) (env : Env)
    (next : World → World × Option GoError) (c : World)
    (htoken : c.Cookies config.CookieName ≠ "")
    (hexpire : env.faults c.log.length = false) :
    NewSessionMiddleware config env next c =
      match Store.HGet env (refreshed config c) (c.Cookies config.CookieName)
          "created_at" with
      | (c', _, some _) =>
        next (c'.setLocals "session_id" (Local.str (c.Cookies config.CookieName)))
      | (c', createdAtStr, none) =>
        match ParseInt createdAtStr with
        | none => next (c'.setLocals "session_id" (Local.str (c.Cookies config.CookieName)))
        | some createdAtUnix =>
          if timeSince env.now (timeUnix createdAtUnix) > config.RegenerateAfter then
            match rotateSessionID env c' config (c.Cookies config.CookieName) with
            | (c'', _, some _) => (c'', some GoError.ErrInternalServerError)
            | (c'', newSessionID, none) =>
              next (c''.setLocals "session_id" (Local.str newSessionID))
          else next (c'.setLocals "session_id" (Local.str (c.Cookies config.CookieName))) := by
  simp only [NewSessionMiddleware, GetOrCreateSessionID_present env c _ _ _ htoken,
    Store.Expire_ok env _ _ _ hexpire]
  rfl

theorem refreshed_log_length (config : SessionMiddlewareConfig) (c : World) :
    (refreshed config c).log.length = c.log.length + 1 := by
  simp [refreshed]

theorem lookedUp_log_length (config : SessionMiddlewareConfig) (c : World) :
    (lookedUp config c).log.length = c.log.length + 2 := by
  simp [lookedUp]

theorem HGet_refreshed_world (config : SessionMiddlewareConfig) (env : Env) (c : World) :
    (Store.HGet env (refreshed config c) (c.Cookies config.CookieName) "created_at").1 =
      lookedUp config c := by
  rw [Store.HGet_world]
  simp [lookedUp, refreshed]

theorem HGet_refreshed_ok (config : SessionMiddlewareConfig) (env : Env) (c : World)
    (s : String)
    (hread : (Store.HGet env (refreshed config c) (c.Cookies config.CookieName)
      "created_at").2 = (s, none)) :
    Store.HGet env (refreshed config c) (c.Cookies config.CookieName) "created_at" =
      (lookedUp config c, s, none) :=
  Prod.ext (HGet_refreshed_world config env c) hread

theorem HGet_refreshed_err (config : SessionMiddlewareConfig) (env : Env) (c : World)
    (h : env.faults (c.log.length + 1) = true ∨ storedCreatedAt config c = none) :
    ∃ e, Store.HGet env (refreshed config c) (c.Cookies config.CookieName) "created_at" =
      (lookedUp config c, "", some e) := by
  obtain ⟨e, he⟩ := Store.HGet_err env (refreshed config c) (c.Cookies config.CookieName)
    "created_at" (by
      rw [refreshed_log_length]
      exact h.imp id (refreshed_read_none config c))
  exact ⟨e, by rw [he]; simp [lookedUp, refreshed]⟩

theorem middleware_no_rotation (config : SessionMiddlewareConfig) (env : Env)
    (next : World → World × Option GoError) (c : World) (s : String) (t : Int)
    (htoken : c.Cookies config.CookieName ≠ "")
    (hexpire : env.faults c.log.length = false)
    (hread : (Store.HGet env (refreshed config c) (c.Cookies config.CookieName)
      "created_at").2 = (s, none))
    (hparse : ParseInt s = some t)
    (hage : ¬ timeSince env.now (timeUnix t) > config.RegenerateAfter) :
    NewSessionMiddleware config env next c =
      next ((lookedUp config c).setLocals "session_id"
        (Local.str (c.Cookies config.CookieName))) := by
  rw [middleware_refreshed config env next c htoken hexpire,
    HGet_refreshed_ok config env c s hread]
  simp only [hparse, if_neg hage]

theorem middleware_rotation (config : SessionMiddlewareConfig) (env : Env)
    (next : World → World × Option GoError) (c : World) (s : String) (t : Int)
    (htoken : c.Cookies config.CookieName ≠ "")
    (hexpire : env.faults c.log.length = false)
    (hread : (Store.HGet env (refreshed config c) (c.Cookies config.CookieName)
      "created_at").2 = (s, none))
    (hparse : ParseInt s = some t)
    (hage : timeSince env.now (timeUnix t) > config.RegenerateAfter) :
    NewSessionMiddleware config env next c =
      afterRotation next
        (rotateSessionID env (lookedUp config c) config (c.Cookies config.CookieName)) := by
  rw [middleware_refreshed config env next c htoken hexpire,
    HGet_refreshed_ok config env c s hread]
  simp only [hparse, if_pos hage]
  rfl

theorem middleware_soft_fail (config : SessionMiddlewareConfig) (env : Env)
    (next : World → World × Option GoError) (c : World)
    (htoken : c.Cookies config.CookieName ≠ "")
    (hexpire : env.faults c.log.length = false)
    (h : env.faults (c.log.length + 1) = true ∨ storedCreatedAt config c = none ∨
      ∃ s, storedCreatedAt config c = some s ∧ ParseInt s = none) :
    NewSessionMiddleware config env next c =
      next ((lookedUp config c).setLocals "session_id"
        (Local.str (c.Cookies config.CookieName))) := by
  rw [middleware_refreshed config env next c htoken hexpire]
  have hw := HGet_refreshed_world config env c
  have hinv := Store.HGet_read env (refreshed config c) (c.Cookies config.CookieName)
    "created_at"
  generalize Store.HGet env (refreshed config c) (c.Cookies config.CookieName)
    "created_at" = r at hw hinv
  obtain ⟨w, str, e⟩ := r
  simp only at hw
  subst hw
  cases e with
  | some e => rfl
  | none =>
    obtain ⟨hf, hv⟩ := hinv str rfl
    rw [refreshed_log_length] at hf
    obtain ⟨_, hstored⟩ := refreshed_read config c str hv
    rcases h with h | h | ⟨s, hs, hp⟩
    · rw [hf] at h; exact absurd h (by decide)
    · rw [hstored] at h; exact absurd h (by simp)
    · rw [hstored] at hs
      have : str = s := by simpa using hs
      subst this
      simp only [hp]

/-! ## Lemmas on the steps of `rotateSessionID` -/

theorem rotate_hgetall_fail (env : Env) (c : World) (config : SessionMiddlewareConfig)
    (old : String) (h0 : env.faults c.log.length = true) :
    rotateSessionID env c config old =
      ({ c with log := c.log ++ (rotationCommands env c config old).take 1 }, "",
        some (GoError.backend c.log.length)) := by
  simp only [rotateSessionID, Store.HGetAll_fail env c old h0]
  rfl

theorem rotate_generate_fail (env : Env) (c : World) (config : SessionMiddlewareConfig)
    (old : String) (e : GoError) (h0 : env.faults c.log.length = false)
    (hrand : env.randErr = some e) :
    rotateSessionID env c config old =
      ({ c with log := c.log ++ (rotationCommands env c config old).take 1 }, "",
        some e) := by
  simp only [rotateSessionID, Store.HGetAll_ok env c old h0,
    generateSessionID_fail env e hrand]
  rfl

theorem rotate_hset_fail (env : Env) (c : World) (config : SessionMiddlewareConfig)
    (old : String) (h0 : env.faults c.log.length = false) (hrand : env.randErr = none)
    (h1 : env.faults (c.log.length + 1) = true) :
    rotateSessionID env c config old =
      ({ c with log := c.log ++ (rotationCommands env c config old).take 2 }, "",
        some (GoError.backend (c.log.length + 1))) := by
  have h1' : env.faults ({ c with log := c.log ++ [Command.HGetAll (fullKey old)] } :
      World).log.length = true := by simpa using h1
  have hg := generateSessionID_ok env hrand
  simp only [rotateSessionID, rotationCommands, rotatedData, Store.HGetAll_ok env c old h0]
  generalize generateSessionID env = g at hg ⊢
  subst hg
  simp only [Store.HSet_fail env _ _ _ h1']
  simp

theorem rotate_expire_fail (env : Env) (c : World) (config : SessionMiddlewareConfig)
    (old : String) (h0 : env.faults c.log.length = false) (hrand : env.randErr = none)
    (h1 : env.faults (c.log.length + 1) = false)
    (h2 : env.faults (c.log.length + 2) = true) :
    rotateSessionID env c config old =
      ({ c with
          log := c.log ++ (rotationCommands env c config old).take 3
          records := writtenRecords env c old }, "",
        some (GoError.backend (c.log.length + 2))) := by
  have h1' : env.faults ({ c with log := c.log ++ [Command.HGetAll (fullKey old)] } :
      World).log.length = false := by simpa using h1
  have hg := generateSessionID_ok env hrand
  simp only [rotateSessionID, rotationCommands, rotatedData, writtenRecords,
    Store.HGetAll_ok env c old h0]
  generalize generateSessionID env = g at hg ⊢
  subst hg
  simp only [Store.HSet_ok env _ _ _ h1']
  rw [Store.Expire_fail env _ _ _ (by simpa using h2)]
  simp

theorem rotate_ok (env : Env) (c : World) (config : SessionMiddlewareConfig)
    (old : String) (h0 : env.faults c.log.length = false) (hrand : env.randErr = none)
    (h1 : env.faults (c.log.length + 1) = false)
    (h2 : env.faults (c.log.length + 2) = false) :
    rotateSessionID env c config old =
      ({ c with
          log := c.log ++ rotationCommands env c config old
          records :=
            if env.faults (c.log.length + 3) then
              expireRecords (writtenRecords env c old) (fullKey (generateSessionID env).1)
                config.SessionDuration
            else
              (expireRecords (writtenRecords env c old) (fullKey (generateSessionID env).1)
                config.SessionDuration).erase (fullKey old)
          respCookies := c.respCookies.insert config.CookieName
            (sessionCookie config.CookieName config.Secure (generateSessionID env).1
              (env.now + config.SessionDuration)) },
        (generateSessionID env).1, none) := by
  have h1' : env.faults ({ c with log := c.log ++ [Command.HGetAll (fullKey old)] } :
      World).log.length = false := by simpa using h1
  have hg := generateSessionID_ok env hrand
  simp only [rotateSessionID, rotationCommands, rotatedData, writtenRecords,
    Store.HGetAll_ok env c old h0]
  generalize generateSessionID env = g at hg ⊢
  subst hg
  simp only [Store.HSet_ok env _ _ _ h1']
  rw [Store.Expire_ok env _ _ _ (by simpa using h2)]
  simp only [Store.Clear_world]
  simp [World.Cookie, sessionCookie, Nat.add_assoc]

theorem rotate_log_head (env : Env) (c : World) (config : SessionMiddlewareConfig)
    (old : String) :
    ∃ rest, (rotateSessionID env c config old).1.log =
      c.log ++ Command.HGetAll (fullKey old) :: rest := by
  cases h0 : env.faults c.log.length with
  | true => exact ⟨[], by rw [rotate_hgetall_fail env c config old h0]; rfl⟩
  | false =>
    cases hrand : env.randErr with
    | some e => exact ⟨[], by rw [rotate_generate_fail env c config old e h0 hrand]; rfl⟩
    | none =>
      cases h1 : env.faults (c.log.length + 1) with
      | true => exact ⟨_, by rw [rotate_hset_fail env c config old h0 hrand h1]; rfl⟩
      | false =>
        cases h2 : env.faults (c.log.length + 2) with
        | true => exact ⟨_, by rw [rotate_expire_fail env c config old h0 hrand h1 h2]; rfl⟩
        | false => exact ⟨_, by rw [rotate_ok env c config old h0 hrand h1 h2]; rfl⟩

theorem afterRotation_log (next : World → World × Option GoError)
    (hnext : ∀ w, (next w).1.log = w.log) (r : World × String × Option GoError) :
    (afterRotation next r).1.log = r.1.log := by
  obtain ⟨w, id, e⟩ := r
  cases e with
  | none => simp [afterRotation, hnext, World.setLocals]
  | some e => simp [afterRotation]

theorem expired_written_lookup (env : Env) (c : World) (old : String) (d : Int)
    (hpos : 0 < formatSec d) :
    (expireRecords (writtenRecords env c old) (fullKey (generateSessionID env).1) d).lookup
        (fullKey (generateSessionID env).1) =
      some { fields := (hsetRecord (c.records.lookup (fullKey (generateSessionID env).1))
          (rotatedData env c old)).fields, ttl := some (formatSec d * Second) } := by
  simp [expireRecords, writtenRecords, if_neg (not_le.mpr hpos)]

theorem rotatedData_lookup_createdAt (env : Env) (c : World) (old : String) :
    (rotatedData env c old).lookup "created_at" = some (FormatInt (unixSeconds env.now)) := by
  simp [rotatedData]

theorem rotatedData_lookup_other (env : Env) (c : World) (old f : String)
    (hf : f ≠ "created_at") :
    (rotatedData env c old).lookup f =
      (c.records.lookup (fullKey old)).bind (fun r => r.fields.lookup f) := by
  simp only [rotatedData, AList.lookup_insert_ne hf]
  cases c.records.lookup (fullKey old) <;> simp

theorem written_fields_lookup (env : Env) (c : World) (old f v : String)
    (hv : (rotatedData env c old).lookup f = some v) :
    (hsetRecord (c.records.lookup (fullKey (generateSessionID env).1))
      (rotatedData env c old)).fields.lookup f = some v := by
  have hmem : f ∈ rotatedData env c old := by
    rw [← AList.lookup_isSome, hv]; rfl
  rw [hsetRecord_lookup_mem _ _ _ hmem, hv]

theorem rotate_failure_cases (env : Env) (c : World) (config : SessionMiddlewareConfig)
    (old : String) (h : rotationStepFails env c) :
    ∃ e k recs, rotateSessionID env c config old =
        ({ c with log := c.log ++ (rotationCommands env c config old).take k
                  records := recs }, "", some e) ∧
      k ≤ 3 ∧
      (recs = c.records ∨
        (env.randErr = none ∧ env.faults c.log.length = false ∧
          env.faults (c.log.length + 1) = false ∧ recs = writtenRecords env c old)) := by
  cases h0 : env.faults c.log.length with
  | true =>
    exact ⟨_, 1, c.records, rotate_hgetall_fail env c config old h0, by omega, Or.inl rfl⟩
  | false =>
    cases hrand : env.randErr with
    | some e =>
      exact ⟨_, 1, c.records, rotate_generate_fail env c config old e h0 hrand, by omega,
        Or.inl rfl⟩
    | none =>
      cases h1 : env.faults (c.log.length + 1) with
      | true =>
        exact ⟨_, 2, c.records, rotate_hset_fail env c config old h0 hrand h1, by omega,
          Or.inl rfl⟩
      | false =>
        cases h2 : env.faults (c.log.length + 2) with
        | true =>
          exact ⟨_, 3, _, rotate_expire_fail env c config old h0 hrand h1 h2, by omega,
            Or.inr ⟨rfl, rfl, rfl, rfl⟩⟩
        | false =>
          rcases h with h | h | h | h
          · simp [h0] at h
          · exact absurd hrand h
          · simp [h1] at h
          · simp [h2] at h

theorem del_not_mem_take (env : Env) (c : World) (config : SessionMiddlewareConfig)
    (old key : String) (k : Nat) (hk : k ≤ 3) :
    Command.Del key ∉ (rotationCommands env c config old).take k := by
  have h3 : Command.Del key ∉ (rotationCommands env c config old).take 3 := by
    simp [rotationCommands]
  intro hmem
  apply h3
  have : (rotationCommands env c config old).take k =
      ((rotationCommands env c config old).take 3).take k := by
    rw [List.take_take, Nat.min_eq_left hk]
  rw [this] at hmem
  exact List.mem_of_mem_take hmem

theorem written_lookup_field (env : Env) (c : World) (old f : String)
    (hf : f ≠ "created_at") :
    ((writtenRecords env c old).lookup (fullKey old)).bind (fun r => r.fields.lookup f) =
      (c.records.lookup (fullKey old)).bind (fun r => r.fields.lookup f) := by
  by_cases hkey : fullKey old = fullKey (generateSessionID env).1
  · have hle : (writtenRecords env c old).lookup (fullKey old) =
        some (hsetRecord (c.records.lookup (fullKey old)) (rotatedData env c old)) := by
      unfold writtenRecords
      rw [← hkey]
      exact AList.lookup_insert _
    rw [hle]
    show (hsetRecord (c.records.lookup (fullKey old)) (rotatedData env c old)).fields.lookup f
      = _
    by_cases hmem : f ∈ rotatedData env c old
    · rw [hsetRecord_lookup_mem _ _ _ hmem, rotatedData_lookup_other env c old f hf]
    · rw [hsetRecord_lookup_not_mem _ _ _ hmem]
  · simp only [writtenRecords, AList.lookup_insert_ne hkey]

theorem middleware_log_head (config : SessionMiddlewareConfig) (env : Env)
    (next : World → World × Option GoError) (c : World)
    (hnext : ∀ w, ∃ rest, (next w).1.log = w.log ++ rest)
    (htoken : c.Cookies config.CookieName ≠ "") :
    ∃ rest, (NewSessionMiddleware config env next c).1.log =
      c.log ++ Command.Expire (fullKey (c.Cookies config.CookieName))
        config.SessionDuration :: rest := by
  have hlocals : ∀ (w : World) (v : Local) (rest0 : List Command),
      w.log = c.log ++ Command.Expire (fullKey (c.Cookies config.CookieName))
        config.SessionDuration :: rest0 →
      ∃ rest, (next (w.setLocals "session_id" v)).1.log =
        c.log ++ Command.Expire (fullKey (c.Cookies config.CookieName))
          config.SessionDuration :: rest := by
    intro w v rest0 hw
    obtain ⟨r, hr⟩ := hnext (w.setLocals "session_id" v)
    refine ⟨rest0 ++ r, ?_⟩
    rw [hr]
    show w.log ++ r = _
    rw [hw]
    simp
  cases hexpire : env.faults c.log.length with
  | true =>
    exact ⟨[], by rw [middleware_expire_fail config env next c htoken hexpire]⟩
  | false =>
    rw [middleware_refreshed config env next c htoken hexpire]
    have hw := Store.HGet_world env (refreshed config c) (c.Cookies config.CookieName)
      "created_at"
    generalize Store.HGet env (refreshed config c) (c.Cookies config.CookieName)
      "created_at" = r at hw
    obtain ⟨w, str, e⟩ := r
    simp only at hw
    have hwlog : w.log = c.log ++ Command.Expire (fullKey (c.Cookies config.CookieName))
        config.SessionDuration ::
          [Command.HGet (fullKey (c.Cookies config.CookieName)) "created_at"] := by
      rw [hw]; simp [refreshed]
    cases e with
    | some e => exact hlocals w _ _ hwlog
    | none =>
      simp only
      cases ParseInt str with
      | none => exact hlocals w _ _ hwlog
      | some t =>
        simp only
        split
        · obtain ⟨rest, hrest⟩ := rotate_log_head env w config (c.Cookies config.CookieName)
          generalize rotateSessionID env w config (c.Cookies config.CookieName) = rr at hrest
          obtain ⟨w', id, e'⟩ := rr
          simp only at hrest
          cases e' with
          | some e' =>
            refine ⟨Command.HGet (fullKey (c.Cookies config.CookieName)) "created_at" ::
              Command.HGetAll (fullKey (c.Cookies config.CookieName)) :: rest, ?_⟩
            simp only
            rw [hrest, hwlog]
            simp
          | none =>
            simp only
            exact hlocals w' _
              (Command.HGet (fullKey (c.Cookies config.CookieName)) "created_at" ::
                Command.HGetAll (fullKey (c.Cookies config.CookieName)) :: rest)
              (by rw [hrest, hwlog]; simp)
        · exact hlocals w _ _ hwlog

/-! ## Lemmas on numbers and time -/

theorem ParseInt_range (s : String) (t : Int) (h : ParseInt s = some t) :
    minInt64 ≤ t ∧ t ≤ maxInt64 := by
  unfold ParseInt at h
  simp only [minInt64, maxInt64] at h ⊢
  split at h
  · simp at h
  all_goals
    split at h
    · simp at h
    · split at h
      · simp at h
      · split_ifs at h <;> simp at h <;> omega

theorem digitValue_ofNat (d : Nat) (h : d < 10) : digitValue (Char.ofNat (48 + d)) = some d := by
  interval_cases d <;> decide

theorem decimalDigits_spec (fuel n : Nat) (acc : List Char) (h : n < fuel) :
    ∃ D : List Char, decimalDigits fuel n acc = D ++ acc ∧
      (∃ d, d < 10 ∧ D.head? = some (Char.ofNat (48 + d))) ∧
      ∀ a rest, parseDigits (D ++ rest) a = parseDigits rest (a * 10 ^ D.length + n) := by
  induction fuel generalizing n acc with
  | zero => omega
  | succ fuel ih =>
    by_cases h0 : n / 10 = 0
    · refine ⟨[Char.ofNat (48 + n % 10)], ?_, ⟨n % 10, Nat.mod_lt _ (by norm_num), rfl⟩, ?_⟩
      · simp [decimalDigits, h0]
      · intro a rest
        have hn : n % 10 = n := by omega
        have hn10 : n < 10 := by omega
        rw [hn]
        simp [parseDigits, digitValue_ofNat n hn10]
    · obtain ⟨D, hD, hhead, hparse⟩ := ih (n / 10) (Char.ofNat (48 + n % 10) :: acc) (by omega)
      refine ⟨D ++ [Char.ofNat (48 + n % 10)], ?_, ?_, ?_⟩
      · simp [decimalDigits, h0, hD]
      · obtain ⟨d, hd, hh⟩ := hhead
        refine ⟨d, hd, ?_⟩
        cases D with
        | nil => simp at hh
        | cons x xs => simpa using hh
      · intro a rest
        rw [List.append_assoc, hparse]
        simp only [List.singleton_append, parseDigits,
          digitValue_ofNat (n % 10) (Nat.mod_lt _ (by norm_num)), List.length_append,
          List.length_singleton]
        congr 1
        rw [pow_succ]
        have := Nat.div_add_mod n 10
        nlinarith [Nat.div_add_mod n 10]

theorem digit_ne_sign (d : Nat) (h : d < 10) :
    Char.ofNat (48 + d) ≠ '+' ∧ Char.ofNat (48 + d) ≠ '-' := by
  interval_cases d <;> decide

theorem ParseInt_FormatInt (n : Int) (h1 : minInt64 ≤ n) (h2 : n ≤ maxInt64) :
    ParseInt (FormatInt n) = some n := by
  obtain ⟨D, hD, ⟨d, hd, hhead⟩, hparse⟩ :=
    decimalDigits_spec (n.natAbs + 1) n.natAbs [] (Nat.lt_succ_self _)
  rw [List.append_nil] at hD
  have hp : parseDigits D 0 = some n.natAbs := by
    have := hparse 0 []
    simpa [parseDigits] using this
  obtain ⟨x, xs, hx⟩ : ∃ x xs, D = x :: xs := by
    cases D with
    | nil => simp at hhead
    | cons x xs => exact ⟨x, xs, rfl⟩
  have hx0 : x = Char.ofNat (48 + d) := by
    rw [hx] at hhead; simpa using hhead
  have hsign := digit_ne_sign d hd
  rw [← hx0] at hsign
  simp only [minInt64, maxInt64] at h1 h2
  by_cases hneg : n < 0
  · have hF : (FormatInt n).data = '-' :: x :: xs := by
      simp [FormatInt, hneg, hD, hx]
    unfold ParseInt
    simp only [hF]
    rw [← hx, hp]
    simp only [maxInt64]
    have : ((n.natAbs : Nat) : Int) = -n := by omega
    simp [this]
    omega
  · have hF : (FormatInt n).data = x :: xs := by
      simp [FormatInt, hneg, hD, hx]
    unfold ParseInt
    simp only [hF]
    split
    · rename_i heq; simp at heq
    · rename_i heq; simp at heq; exact absurd heq.1 hsign.1
    · rename_i heq; simp at heq; exact absurd heq.1 hsign.2
    · rw [← hx, hp]
      simp only [maxInt64]
      have : ((n.natAbs : Nat) : Int) = n := by omega
      simp only [this]
      rw [hx]
      simp [h2]

theorem timeUnix_exact (t : Int) (h1 : minInt64 ≤ t) (h2 : t + unixToInternal ≤ maxInt64) :
    timeUnix t = t * Second := by
  simp only [timeUnix, wrapInt64, unixToInternal, minInt64, maxInt64] at *
  have : (t + 62135596800 + 2 ^ 63) % 2 ^ 64 = t + 62135596800 + 2 ^ 63 := by
    apply Int.emod_eq_of_lt <;> norm_num <;> omega
  rw [this]
  ring_nf

theorem timeSince_gt_iff (now u d : Int) (h1 : minDuration ≤ d) (h2 : d < maxDuration) :
    timeSince now u > d ↔ now - u > d := by
  simp only [timeSince, timeSub, minDuration, maxDuration, minInt64, maxInt64] at *
  split
  · constructor <;> intro <;> omega
  · split
    · constructor <;> intro <;> omega
    · rfl

/-! ## Lemmas on hexadecimal encoding and escaping -/

theorem hextable_getD_isLowerHex (k : Nat) : isLowerHex (hextable.getD k '0') = true := by
  rcases Nat.lt_or_ge k 16 with h | h
  · interval_cases k <;> decide
  · rw [List.getD_eq_default _ _ (by simpa [hextable] using h)]
    decide

theorem hexDigits_length (bytes : List Nat) :
    (bytes.foldr (fun b acc => hexByte b ++ acc) []).length = 2 * bytes.length := by
  induction bytes with
  | nil => rfl
  | cons b rest ih =>
    have hb : (hexByte b).length = 2 := rfl
    simp only [List.foldr_cons, List.length_append, List.length_cons, ih, hb]
    omega

theorem hexDigits_pair (bytes : List Nat) (i : Nat) (h : i < bytes.length) :
    ((bytes.foldr (fun b acc => hexByte b ++ acc) []).drop (2 * i)).take 2 =
      hexByte (bytes.getD i 0) := by
  induction bytes generalizing i with
  | nil => simp at h
  | cons b rest ih =>
    cases i with
    | zero => simp [hexByte]
    | succ i =>
      have hi : i < rest.length := by simpa using h
      have e : 2 * (i + 1) = 2 * i + 1 + 1 := by ring
      simp only [List.foldr_cons, e, List.getD_cons_succ]
      rw [← ih i hi]
      simp [hexByte]

theorem hexDigits_isLowerHex (bytes : List Nat) :
    ∀ ch ∈ bytes.foldr (fun b acc => hexByte b ++ acc) [], isLowerHex ch = true := by
  induction bytes with
  | nil => simp
  | cons b rest ih =>
    intro ch hch
    simp only [List.foldr_cons, List.mem_append, hexByte, List.mem_cons,
      List.mem_singleton, List.not_mem_nil, or_false] at hch
    rcases hch with (h | h) | h
    · rw [h]; exact hextable_getD_isLowerHex _
    · rw [h]; exact hextable_getD_isLowerHex _
    · exact ih ch h

theorem accepts_eq_not_isPlain (c : Char) : escapePattern.accepts c = !isPlain c := by
  have key : ∀ d : Char, (decide (d ≤ c) && decide (c ≤ d)) = (c == d) := by
    intro d
    by_cases h : c = d
    · subst h; simp
    · have hb : (c == d) = false := by simpa using h
      rw [hb, Bool.and_eq_false_iff]
      by_cases h1 : d ≤ c
      · right
        simpa using fun h2 => h (Char.le_antisymm h2 h1)
      · left
        simpa using h1
  have h1 := key '_'
  have h2 := key ' '
  simp only [CharClass.accepts, escapePattern, List.any_cons, List.any_nil, h1, h2,
    isPlain, Char.isAlpha, Char.isUpper, Char.isLower, Char.isDigit, Bool.or_false]
  have e1 : decide ('a' ≤ c) = decide (c.val ≥ 97) := rfl
  have e2 : decide (c ≤ 'z') = decide (c.val ≤ 122) := rfl
  have e3 : decide ('A' ≤ c) = decide (c.val ≥ 65) := rfl
  have e4 : decide (c ≤ 'Z') = decide (c.val ≤ 90) := rfl
  have e5 : decide ('0' ≤ c) = decide (c.val ≥ 48) := rfl
  have e6 : decide (c ≤ '9') = decide (c.val ≤ 57) := rfl
  rw [e1, e2, e3, e4, e5, e6]
  cases (decide (c.val ≥ 97) && decide (c.val ≤ 122)) <;>
    cases (decide (c.val ≥ 65) && decide (c.val ≤ 90)) <;>
    cases (decide (c.val ≥ 48) && decide (c.val ≤ 57)) <;>
    cases (c == '_') <;> cases (c == ' ') <;> rfl

theorem replaceAllChars_escape (l : List Char) :
    replaceAllChars escapePattern (fun s => "\\" ++ s) l = backslashBeforeSpecial l := by
  induction l with
  | nil => rfl
  | cons c rest ih =>
    simp only [replaceAllChars, backslashBeforeSpecial, accepts_eq_not_isPlain, ih]
    cases isPlain c <;> simp [String.singleton]

theorem backslashBeforeSpecial_plain (l : List Char) (h : ∀ c ∈ l, isPlain c = true) :
    backslashBeforeSpecial l = l := by
  induction l with
  | nil => rfl
  | cons c rest ih =>
    have hc := h c (List.mem_cons_self _ _)
    simp only [backslashBeforeSpecial, hc, if_true]
    rw [ih (fun d hd => h d (List.mem_cons_of_mem _ hd))]

theorem backslashBeforeSpecial_length (l : List Char) :
    (backslashBeforeSpecial l).length = l.length + l.countP (fun c => !isPlain c) := by
  induction l with
  | nil => rfl
  | cons c rest ih =>
    cases hc : isPlain c <;> simp [backslashBeforeSpecial, hc, ih, List.countP_cons] <;> omega

theorem dropEscapes_backslashBeforeSpecial (l : List Char) :
    dropEscapes (backslashBeforeSpecial l) = l := by
  induction l with
  | nil => rfl
  | cons c rest ih =>
    cases hc : isPlain c with
    | false =>
      simp only [backslashBeforeSpecial, hc, Bool.false_eq_true, if_false, dropEscapes,
        if_true, ih]
    | true =>
      have hne : c ≠ '\\' := by
        intro h; subst h; exact absurd hc (by decide)
      simp only [backslashBeforeSpecial, hc, if_true]
      cases hrest : backslashBeforeSpecial rest with
      | nil =>
        rw [hrest] at ih
        simp only [dropEscapes] at ih ⊢
        rw [← ih]
      | cons d tail =>
        rw [hrest] at ih
        simp only [dropEscapes, hne, if_false, ih]

/-! ## Theorems -/

/-- C1 (as the code behaves). For every request that presents no token, when the
identifier is generated and the `HSet` succeeds, the handler sends exactly one command
to the backend, the `HSet` of `created_at = now` on the new identifier, and no
`Expire`: the expiration of the new key is what it was before the request (none for a
key that did not exist), and the next handler runs on that state. -/
theorem new_session_gets_no_expire (config : SessionMiddlewareConfig) (env : Env)
    (next : World → World × Option GoError) (c : World)
    (hcookie : c.Cookies config.CookieName = "")
    (hrand : env.randErr = none)
    (hset : env.faults c.log.length = false) :
    ∃ c' : World,
      NewSessionMiddleware config env next c = next c' ∧
      c'.log = c.log ++ [Command.HSet (fullKey (generateSessionID env).1)
        (AList.singleton "created_at" (FormatInt (unixSeconds env.now)))] ∧
      (∀ key expiration, Command.Expire key expiration ∉ c'.log.drop c.log.length) ∧
      ((c'.records.lookup (fullKey (generateSessionID env).1)).bind Record.ttl =
        (c.records.lookup (fullKey (generateSessionID env).1)).bind Record.ttl) ∧
      ((c'.records.lookup (fullKey (generateSessionID env).1)).bind
          (fun r => r.fields.lookup "created_at") =
        some (FormatInt (unixSeconds env.now))) ∧
      c'.Locals "session_id" = some (Local.str (generateSessionID env).1) := by
  have hset' : env.faults (c.Cookie (sessionCookie config.CookieName config.Secure
      (generateSessionID env).1 (env.now + config.SessionDuration))).log.length = false := hset
  have hw : newSessionWorld config env c =
      { c with
        log := c.log ++ [Command.HSet (fullKey (generateSessionID env).1)
          (AList.singleton "created_at" (FormatInt (unixSeconds env.now)))]
        records := c.records.insert (fullKey (generateSessionID env).1)
          (hsetRecord (c.records.lookup (fullKey (generateSessionID env).1))
            (AList.singleton "created_at" (FormatInt (unixSeconds env.now))))
        respCookies := c.respCookies.insert config.CookieName
          (sessionCookie config.CookieName config.Secure (generateSessionID env).1
            (env.now + config.SessionDuration))
        locals := c.locals.insert "session_id" (Local.str (generateSessionID env).1) } := by
    simp only [newSessionWorld, Store.HSet_ok env _ _ _ hset']
    rfl
  have hmem := mem_singleton_self "created_at" (FormatInt (unixSeconds env.now))
  refine ⟨newSessionWorld config env c, middleware_new config env next c hcookie hrand hset,
    ?_, ?_, ?_, ?_, ?_⟩
  · rw [hw]
  · rw [hw]; simp
  · rw [hw]; simp [hsetRecord_ttl]
  · rw [hw]; simp [hsetRecord_lookup_mem _ _ _ hmem, lookup_singleton_self]
  · rw [hw]; simp [World.Locals]

/-- C1, the failing input: a request without cookie at second 100 on an empty
backend. The only command sent is the `HSet`; the new record has no expiration. -/
theorem new_session_gets_no_expire_at_empty :
    emptyWorld.Cookies sampleConfig.CookieName = "" ∧
    (calmEnv 100 0).randErr = none ∧
    (calmEnv 100 0).faults emptyWorld.log.length = false ∧
    (NewSessionMiddleware sampleConfig (calmEnv 100 0) done emptyWorld).1.log =
      [Command.HSet
        "session:000102030405060708090a0b0c0d0e0f101112131415161718191a1b1c1d1e1f"
        (AList.singleton "created_at" "100")] ∧
    ((NewSessionMiddleware sampleConfig (calmEnv 100 0) done emptyWorld).1.records.lookup
        "session:000102030405060708090a0b0c0d0e0f101112131415161718191a1b1c1d1e1f").map
      Record.ttl = some none ∧
    (∃ c' : World,
      NewSessionMiddleware sampleConfig (calmEnv 100 0) done emptyWorld = done c' ∧
      ∀ key expiration, Command.Expire key expiration ∉ c'.log.drop emptyWorld.log.length) := by
  refine ⟨by decide, by decide, by decide, by decide, by decide, ?_⟩
  obtain ⟨c', h1, _, h3, _⟩ :=
    new_session_gets_no_expire sampleConfig (calmEnv 100 0) done emptyWorld
      (by decide) (by decide) (by decide)
  exact ⟨c', h1, h3⟩

/-- C2 as stated fails at two inputs of its domain. With `created_at =
9223372036854775807` (read and parsed) and `RegenerateAfter` 1800 s, `now - created_at`
is negative, not greater than the threshold, and rotation is performed: `time.Unix`
has no instant for that value and yields one far in the past. With `created_at =
-10000000000` and `RegenerateAfter` the largest duration, `now - created_at` exceeds
the threshold and no rotation is performed: no `Duration` exceeds the largest one. -/
theorem rotation_differs_from_exact_age :
    ((sampleWorldCreatedAt "9223372036854775807").Cookies sampleConfig.CookieName ≠ "" ∧
      (Store.HGet (calmEnv 1801 32)
        (Store.Expire (calmEnv 1801 32) (sampleWorldCreatedAt "9223372036854775807")
          sampleID sampleConfig.SessionDuration).1 sampleID "created_at").2 =
        ("9223372036854775807", none) ∧
      ParseInt "9223372036854775807" = some 9223372036854775807 ∧
      ¬ ((calmEnv 1801 32).now - 9223372036854775807 * Second >
        sampleConfig.RegenerateAfter) ∧
      Command.HGetAll (fullKey sampleID) ∈
        (NewSessionMiddleware sampleConfig (calmEnv 1801 32) done
          (sampleWorldCreatedAt "9223372036854775807")).1.log.drop
            (sampleWorldCreatedAt "9223372036854775807").log.length) ∧
    ((sampleWorldCreatedAt "-10000000000").Cookies sampleConfigNeverRotating.CookieName
        ≠ "" ∧
      (Store.HGet (calmEnv 1801 32)
        (Store.Expire (calmEnv 1801 32) (sampleWorldCreatedAt "-10000000000")
          sampleID sampleConfigNeverRotating.SessionDuration).1 sampleID "created_at").2 =
        ("-10000000000", none) ∧
      ParseInt "-10000000000" = some (-10000000000) ∧
      (calmEnv 1801 32).now - (-10000000000) * Second >
        sampleConfigNeverRotating.RegenerateAfter ∧
      Command.HGetAll (fullKey sampleID) ∉
        (NewSessionMiddleware sampleConfigNeverRotating (calmEnv 1801 32) done
          (sampleWorldCreatedAt "-10000000000")).1.log.drop
            (sampleWorldCreatedAt "-10000000000").log.length) := by
  refine ⟨⟨by decide, by decide, by decide, by decide, by decide⟩,
    ⟨by decide, by decide, by decide, by decide, by decide⟩⟩

/-- C2 (amended). For every presented non-empty token whose TTL refresh succeeded and
whose `created_at` was then read and parsed, rotation is started (its first command
`HGetAll` on the token is sent) if and only if the age
`time.Since(time.Unix(created_at, 0))` is strictly greater than `RegenerateAfter`; that
age exceeds the threshold exactly when `now - created_at` does, provided the threshold
is below the largest duration and `created_at + 62135596800` fits in an `int64`. When
the age exceeds the threshold the handler continues with the result of
`rotateSessionID`; when it does not, the next handler runs with the presented token
attached, after exactly the commands `Expire` and `HGet`: no cookie is set and no
field of any record is changed. -/
theorem rotation_iff_age_exceeds (config : SessionMiddlewareConfig) (env : Env)
    (c : World) (s : String) (t : Int)
    (htoken : c.Cookies config.CookieName ≠ "")
    (hexpire : env.faults c.log.length = false)
    (hread : (Store.HGet env (Store.Expire env c (c.Cookies config.CookieName)
        config.SessionDuration).1 (c.Cookies config.CookieName) "created_at").2 =
      (s, none))
    (hparse : ParseInt s = some t) :
    (Command.HGetAll (fullKey (c.Cookies config.CookieName)) ∈
        (NewSessionMiddleware config env done c).1.log.drop c.log.length ↔
      timeSince env.now (timeUnix t) > config.RegenerateAfter) ∧
    (timeSince env.now (timeUnix t) > config.RegenerateAfter →
      ∀ next, NewSessionMiddleware config env next c =
        afterRotation next
          (rotateSessionID env (lookedUp config c) config (c.Cookies config.CookieName))) ∧
    (timeSince env.now (timeUnix t) ≤ config.RegenerateAfter →
      ∀ next, NewSessionMiddleware config env next c =
        next ((lookedUp config c).setLocals "session_id"
          (Local.str (c.Cookies config.CookieName)))) ∧
    (lookedUp config c).log = c.log ++
      [Command.Expire (fullKey (c.Cookies config.CookieName)) config.SessionDuration,
        Command.HGet (fullKey (c.Cookies config.CookieName)) "created_at"] ∧
    (lookedUp config c).respCookies = c.respCookies ∧
    (∀ key, ((lookedUp config c).records.lookup key).map Record.fields =
      (c.records.lookup key).map Record.fields) ∧
    (minDuration ≤ config.RegenerateAfter → config.RegenerateAfter < maxDuration →
      t + unixToInternal ≤ maxInt64 →
      (timeSince env.now (timeUnix t) > config.RegenerateAfter ↔
        env.now - t * Second > config.RegenerateAfter)) := by
  have hexp : (Store.Expire env c (c.Cookies config.CookieName)
      config.SessionDuration).1 = refreshed config c := by
    rw [Store.Expire_ok env _ _ _ hexpire]; rfl
  rw [hexp] at hread
  have hpos : 0 < formatSec config.SessionDuration :=
    (refreshed_read config c s (Store.HGet_read env _ _ _ s hread).2).1
  refine ⟨?_, ?_, ?_, rfl, rfl, ?_, ?_⟩
  · by_cases hage : timeSince env.now (timeUnix t) > config.RegenerateAfter
    · simp only [hage, iff_true]
      rw [middleware_rotation config env done c s t htoken hexpire hread hparse hage,
        afterRotation_log done (fun _ => rfl)]
      obtain ⟨rest, hrest⟩ := rotate_log_head env (lookedUp config c) config
        (c.Cookies config.CookieName)
      rw [hrest]
      simp [lookedUp]
    · simp only [hage, iff_false]
      rw [middleware_no_rotation config env done c s t htoken hexpire hread hparse hage]
      simp [done, World.setLocals, lookedUp]
  · intro hage next
    exact middleware_rotation config env next c s t htoken hexpire hread hparse hage
  · intro hage next
    exact middleware_no_rotation config env next c s t htoken hexpire hread hparse
      (not_lt.mpr hage)
  · intro key
    exact expireRecords_fields c.records _ key config.SessionDuration hpos
  · intro h1 h2 h3
    rw [timeUnix_exact t (ParseInt_range s t hparse).1 h3]
    exact timeSince_gt_iff env.now (t * Second) config.RegenerateAfter h1 h2

/-- C2 (amended), the scenario of a session created at second 0 with `RegenerateAfter`
1800 s: at the ages 900 s and 1800 s the presented token is attached unchanged, no
cookie is set and no field is written; at the age 1801 s rotation is performed and
another identifier is attached. -/
theorem rotation_iff_age_exceeds_scenario :
    (Command.HGetAll (fullKey sampleID) ∉
        (NewSessionMiddleware sampleConfig (calmEnv 900 32) done sampleWorld).1.log.drop
          sampleWorld.log.length ∧
      (NewSessionMiddleware sampleConfig (calmEnv 900 32) done sampleWorld).1.Locals
        "session_id" = some (Local.str sampleID) ∧
      (NewSessionMiddleware sampleConfig (calmEnv 900 32) done sampleWorld).1.respCookies
        = ∅ ∧
      (NewSessionMiddleware sampleConfig (calmEnv 900 32) done sampleWorld).1.records.lookup
        (fullKey sampleID) = some
          { fields := (AList.singleton "created_at" "0").insert "user" "alice",
            ttl := some (3600 * Second) }) ∧
    (Command.HGetAll (fullKey sampleID) ∉
        (NewSessionMiddleware sampleConfig (calmEnv 1800 32) done sampleWorld).1.log.drop
          sampleWorld.log.length ∧
      (NewSessionMiddleware sampleConfig (calmEnv 1800 32) done sampleWorld).1.Locals
        "session_id" = some (Local.str sampleID)) ∧
    (Command.HGetAll (fullKey sampleID) ∈
        (NewSessionMiddleware sampleConfig (calmEnv 1801 32) done sampleWorld).1.log.drop
          sampleWorld.log.length ∧
      (NewSessionMiddleware sampleConfig (calmEnv 1801 32) done sampleWorld).1.Locals
        "session_id" = some (Local.str
          "202122232425262728292a2b2c2d2e2f303132333435363738393a3b3c3d3e3f")) := by
  have h900 := rotation_iff_age_exceeds sampleConfig (calmEnv 900 32) sampleWorld "0" 0
    (by decide) (by decide) (by decide) (by decide)
  have h1800 := rotation_iff_age_exceeds sampleConfig (calmEnv 1800 32) sampleWorld "0" 0
    (by decide) (by decide) (by decide) (by decide)
  have h1801 := rotation_iff_age_exceeds sampleConfig (calmEnv 1801 32) sampleWorld "0" 0
    (by decide) (by decide) (by decide) (by decide)
  refine ⟨⟨?_, by decide, by decide, by decide⟩, ⟨?_, by decide⟩, ⟨?_, by decide⟩⟩
  · exact fun h => absurd (h900.1.mp h) (by decide)
  · exact fun h => absurd (h1800.1.mp h) (by decide)
  · exact h1801.1.mpr (by decide)

/-- C3 as stated fails for a `SessionDuration` that is not a positive whole number of
seconds. With `SessionDuration = 0` and all store operations succeeding, the rotation
of the sample session returns the new identifier, but `EXPIRE` with 0 seconds deletes
the key just written: the new identifier has no record (no field, no TTL). With
`SessionDuration` 1500 ms the new identifier gets a TTL of one second. -/
theorem rotation_loses_session_without_duration :
    (generateSessionID (calmEnv 1801 32)).1 ≠ sampleID ∧
    (rotateSessionID (calmEnv 1801 32) sampleWorld (sampleConfigLasting 0) sampleID).2 =
      ("202122232425262728292a2b2c2d2e2f303132333435363738393a3b3c3d3e3f", none) ∧
    (sampleWorld.records.lookup (fullKey sampleID)).bind
      (fun r => r.fields.lookup "user") = some "alice" ∧
    (rotateSessionID (calmEnv 1801 32) sampleWorld (sampleConfigLasting 0)
      sampleID).1.records.lookup
        (fullKey "202122232425262728292a2b2c2d2e2f303132333435363738393a3b3c3d3e3f") =
      none ∧
    ((rotateSessionID (calmEnv 1801 32) sampleWorld (sampleConfigLasting 1500000000)
      sampleID).1.records.lookup
        (fullKey "202122232425262728292a2b2c2d2e2f303132333435363738393a3b3c3d3e3f")).map
      Record.ttl = some (some (1 * Second)) ∧
    (sampleConfigLasting 1500000000).SessionDuration ≠ 1 * Second := by
  refine ⟨by decide, by decide, by decide, by decide, by decide, by decide⟩

/-- C3 (amended). For every store state, every old token and every generated
identifier different from the old token, when all store operations succeed
`rotateSessionID` returns the generated identifier with a nil error and the old
identifier has no record afterwards; when moreover `SessionDuration` is positive,
every field of the old session other than `created_at` is present under the new
identifier with its value unchanged, `created_at` under the new identifier is the
decimal string of the current Unix time (a string that `ParseInt` reads back as that
time), and the new identifier has as TTL `SessionDuration` in whole seconds: one
second below a second, otherwise rounded down, so `SessionDuration` itself when that
is a whole number of seconds. -/
theorem rotation_moves_session (env : Env) (c : World) (config : SessionMiddlewareConfig)
    (old : String)
    (hrand : env.randErr = none)
    (hnew : (generateSessionID env).1 ≠ old)
    (h0 : env.faults c.log.length = false)
    (h1 : env.faults (c.log.length + 1) = false)
    (h2 : env.faults (c.log.length + 2) = false)
    (h3 : env.faults (c.log.length + 3) = false) :
    (rotateSessionID env c config old).2 = ((generateSessionID env).1, none) ∧
    (rotateSessionID env c config old).1.records.lookup (fullKey old) = none ∧
    (0 < config.SessionDuration →
      (∀ f v, f ≠ "created_at" →
        (c.records.lookup (fullKey old)).bind (fun r => r.fields.lookup f) = some v →
        ((rotateSessionID env c config old).1.records.lookup
          (fullKey (generateSessionID env).1)).bind (fun r => r.fields.lookup f) = some v) ∧
      ((rotateSessionID env c config old).1.records.lookup
          (fullKey (generateSessionID env).1)).bind (fun r => r.fields.lookup "created_at") =
        some (FormatInt (unixSeconds env.now)) ∧
      ((rotateSessionID env c config old).1.records.lookup
          (fullKey (generateSessionID env).1)).map Record.ttl =
        some (some (formatSec config.SessionDuration * Second)) ∧
      (config.SessionDuration % Second = 0 →
        formatSec config.SessionDuration * Second = config.SessionDuration) ∧
      (config.SessionDuration < Second → formatSec config.SessionDuration = 1) ∧
      (Second ≤ config.SessionDuration →
        formatSec config.SessionDuration * Second ≤ config.SessionDuration ∧
        config.SessionDuration < formatSec config.SessionDuration * Second + Second)) ∧
    (minInt64 ≤ unixSeconds env.now → unixSeconds env.now ≤ maxInt64 →
      ParseInt (FormatInt (unixSeconds env.now)) = some (unixSeconds env.now)) := by
  have hkey : fullKey (generateSessionID env).1 ≠ fullKey old :=
    fun h => hnew (fullKey_injective h)
  have hrot := rotate_ok env c config old h0 hrand h1 h2
  simp only [h3, Bool.false_eq_true, if_false] at hrot
  refine ⟨by rw [hrot], ?_, ?_, ParseInt_FormatInt _⟩
  · rw [hrot]
    exact AList.lookup_erase _ _
  · intro hd
    have hpos := formatSec_pos config.SessionDuration hd
    have hlook : (rotateSessionID env c config old).1.records.lookup
        (fullKey (generateSessionID env).1) =
        some { fields := (hsetRecord (c.records.lookup (fullKey (generateSessionID env).1))
                   (rotatedData env c old)).fields,
               ttl := some (formatSec config.SessionDuration * Second) } := by
      rw [hrot]
      show AList.lookup _ (AList.erase _ _) = _
      rw [AList.lookup_erase_ne hkey, expired_written_lookup env c old _ hpos]
    rw [hlook]
    refine ⟨?_, ?_, rfl, formatSec_whole _ hd, ?_, formatSec_bounds _⟩
    · intro f v hf hv
      rw [← rotatedData_lookup_other env c old f hf] at hv
      exact written_fields_lookup env c old f v hv
    · exact written_fields_lookup env c old "created_at" _
        (rotatedData_lookup_createdAt env c old)
    · intro hlt
      simp only [formatSec, if_pos (And.intro hd hlt)]

/-- C3 (amended), the sample scenario: rotating the session created at second 0
(fields `created_at` and `user`) at second 1801 gives a new identifier that holds
`user` unchanged and `created_at = "1801"` with a TTL of one hour, and the old key is
gone. -/
theorem rotation_moves_session_scenario :
    (rotateSessionID (calmEnv 1801 32) sampleWorld sampleConfig sampleID).2 =
      ("202122232425262728292a2b2c2d2e2f303132333435363738393a3b3c3d3e3f", none) ∧
    (rotateSessionID (calmEnv 1801 32) sampleWorld sampleConfig sampleID).1.records.lookup
      (fullKey "202122232425262728292a2b2c2d2e2f303132333435363738393a3b3c3d3e3f") =
      some { fields := ((AList.singleton "user" "alice").insert "created_at" "1801"),
             ttl := some (3600 * Second) } ∧
    ((rotateSessionID (calmEnv 1801 32) sampleWorld sampleConfig sampleID).1.records.lookup
        (fullKey (generateSessionID (calmEnv 1801 32)).1)).bind
      (fun r => r.fields.lookup "user") = some "alice" ∧
    (rotateSessionID (calmEnv 1801 32) sampleWorld sampleConfig sampleID).1.records.lookup
      (fullKey sampleID) = none := by
  have h := rotation_moves_session (calmEnv 1801 32) sampleWorld sampleConfig sampleID
    (by decide) (by decide) (by decide) (by decide) (by decide) (by decide)
  exact ⟨by decide, by decide, (h.2.2.1 (by decide)).1 "user" "alice" (by decide) (by decide),
    h.2.1⟩

/-- C4 as stated fails when the generated identifier equals the old token: in the
sample scenario with the random source repeating the bytes of the old token and
`Expire` on the new identifier failing, `rotateSessionID` returns an error, but the
`HSet` has already overwritten `created_at` of the old session ("0" before, "1801"
after). -/
theorem rotation_failure_rewrites_colliding_session :
    rotationStepFails collidingEnv sampleWorld ∧
    (generateSessionID collidingEnv).1 = sampleID ∧
    (rotateSessionID collidingEnv sampleWorld sampleConfig sampleID).2 =
      ("", some (GoError.backend 4)) ∧
    (sampleWorld.records.lookup (fullKey sampleID)).bind
      (fun r => r.fields.lookup "created_at") = some "0" ∧
    ((rotateSessionID collidingEnv sampleWorld sampleConfig sampleID).1.records.lookup
      (fullKey sampleID)).bind (fun r => r.fields.lookup "created_at") = some "1801" ∧
    (rotateSessionID collidingEnv sampleWorld sampleConfig sampleID).1.records.lookup
      (fullKey sampleID) ≠ sampleWorld.records.lookup (fullKey sampleID) := by
  refine ⟨Or.inr (Or.inr (Or.inr (by decide))), by decide, by decide, by decide,
    by decide, by decide⟩

/-- C4 (amended). For every rotation in which `HGetAll` on the old token, identifier
generation, `HSet` on the new identifier or `Expire` on the new identifier fails:
`rotateSessionID` returns an error with the empty identifier, the handler returns
`ErrInternalServerError` without running the next handler, no `Del` of the old token
is sent, no cookie is set, every field of the old session other than `created_at` is
what it was, and when the generated identifier differs from the old token the whole
record of the old session (fields and TTL) is what it was. -/
theorem rotation_failure_keeps_old_session (env : Env) (c : World)
    (config : SessionMiddlewareConfig) (old : String) (h : rotationStepFails env c) :
    (∃ e, (rotateSessionID env c config old).2 = ("", some e)) ∧
    (∀ (c0 : World) (s : String) (t : Int) (next : World → World × Option GoError),
      c0.Cookies config.CookieName ≠ "" → old = c0.Cookies config.CookieName →
      env.faults c0.log.length = false →
      (Store.HGet env (Store.Expire env c0 (c0.Cookies config.CookieName)
        config.SessionDuration).1 (c0.Cookies config.CookieName) "created_at").2 =
          (s, none) →
      ParseInt s = some t →
      timeSince env.now (timeUnix t) > config.RegenerateAfter → c = lookedUp config c0 →
      NewSessionMiddleware config env next c0 =
        ((rotateSessionID env c config old).1, some GoError.ErrInternalServerError)) ∧
    Command.Del (fullKey old) ∉ (rotateSessionID env c config old).1.log.drop c.log.length ∧
    (rotateSessionID env c config old).1.respCookies = c.respCookies ∧
    (∀ f, f ≠ "created_at" →
      ((rotateSessionID env c config old).1.records.lookup (fullKey old)).bind
          (fun r => r.fields.lookup f) =
        (c.records.lookup (fullKey old)).bind (fun r => r.fields.lookup f)) ∧
    ((generateSessionID env).1 ≠ old →
      (rotateSessionID env c config old).1.records.lookup (fullKey old) =
        c.records.lookup (fullKey old)) := by
  obtain ⟨e, k, recs, hrot, hk, hrecs⟩ := rotate_failure_cases env c config old h
  refine ⟨⟨e, by rw [hrot]⟩, ?_, ?_, by rw [hrot], ?_, ?_⟩
  · intro c0 s t next htoken hold hexpire hread hparse hage hc
    subst hc hold
    have hexp : (Store.Expire env c0 (c0.Cookies config.CookieName)
        config.SessionDuration).1 = refreshed config c0 := by
      rw [Store.Expire_ok env _ _ _ hexpire]; rfl
    rw [hexp] at hread
    rw [middleware_rotation config env next c0 s t htoken hexpire hread hparse hage, hrot]
    rfl
  · rw [hrot]
    simpa using del_not_mem_take env c config old (fullKey old) k hk
  · intro f hf
    rw [hrot]
    rcases hrecs with hr | ⟨_, _, _, hr⟩
    · rw [hr]
    · rw [hr]
      exact written_lookup_field env c old f hf
  · intro hnew
    have hkey : fullKey old ≠ fullKey (generateSessionID env).1 :=
      fun hk => hnew (fullKey_injective hk).symm
    rw [hrot]
    rcases hrecs with hr | ⟨_, _, _, hr⟩
    · rw [hr]
    · rw [hr]
      simp only [writtenRecords, AList.lookup_insert_ne hkey]

/-- C4 (amended), the sample scenario with a fresh identifier and a failing `Expire`:
the error is returned and the old session is untouched. -/
theorem rotation_failure_keeps_old_session_scenario :
    rotationStepFails { collidingEnv with randBytes := fun i => 32 + i } sampleWorld ∧
    (rotateSessionID { collidingEnv with randBytes := fun i => 32 + i } sampleWorld
      sampleConfig sampleID).2 = ("", some (GoError.backend 4)) ∧
    (rotateSessionID { collidingEnv with randBytes := fun i => 32 + i } sampleWorld
        sampleConfig sampleID).1.records.lookup (fullKey sampleID) =
      sampleWorld.records.lookup (fullKey sampleID) := by
  have hfail : rotationStepFails { collidingEnv with randBytes := fun i => 32 + i }
      sampleWorld := Or.inr (Or.inr (Or.inr (by decide)))
  exact ⟨hfail, by decide,
    (rotation_failure_keeps_old_session { collidingEnv with randBytes := fun i => 32 + i }
      sampleWorld sampleConfig sampleID hfail).2.2.2.2.2 (by decide)⟩

/-- C5. For every presented non-empty token whose TTL refresh succeeded, if the
read of `created_at` returns an error (which it does when the command fails and when
the session or the field is absent) or the value read does not parse as a base-10
64-bit integer, the handler does not fail: it runs the next handler with the presented
token attached as the session identifier, after exactly the commands `Expire` and
`HGet` (no `HGetAll`, `HSet` or `Del`), with no cookie set. -/
theorem missing_created_at_skips_rotation (config : SessionMiddlewareConfig) (env : Env)
    (c : World)
    (htoken : c.Cookies config.CookieName ≠ "")
    (hexpire : env.faults c.log.length = false)
    (hread :
      (Store.HGet env (Store.Expire env c (c.Cookies config.CookieName)
          config.SessionDuration).1 (c.Cookies config.CookieName) "created_at").2.2 ≠ none ∨
      ParseInt (Store.HGet env (Store.Expire env c (c.Cookies config.CookieName)
          config.SessionDuration).1 (c.Cookies config.CookieName) "created_at").2.1 = none) :
    ∃ c' : World,
      (∀ next, NewSessionMiddleware config env next c = next c') ∧
      c'.log = c.log ++
        [Command.Expire (fullKey (c.Cookies config.CookieName)) config.SessionDuration,
          Command.HGet (fullKey (c.Cookies config.CookieName)) "created_at"] ∧
      c'.respCookies = c.respCookies ∧
      c'.Locals "session_id" = some (Local.str (c.Cookies config.CookieName)) ∧
      (∀ key, key ≠ fullKey (c.Cookies config.CookieName) →
        c'.records.lookup key = c.records.lookup key) ∧
      (0 < config.SessionDuration →
        ∀ key, (c'.records.lookup key).map Record.fields =
          (c.records.lookup key).map Record.fields) ∧
      ((env.faults (c.log.length + 1) = true ∨ storedCreatedAt config c = none) →
        (Store.HGet env (Store.Expire env c (c.Cookies config.CookieName)
          config.SessionDuration).1 (c.Cookies config.CookieName) "created_at").2.2 ≠
            none) := by
  have hexp : (Store.Expire env c (c.Cookies config.CookieName)
      config.SessionDuration).1 = refreshed config c := by
    rw [Store.Expire_ok env _ _ _ hexpire]; rfl
  rw [hexp] at hread ⊢
  refine ⟨(lookedUp config c).setLocals "session_id"
    (Local.str (c.Cookies config.CookieName)), ?_, rfl, rfl, ?_, ?_, ?_, ?_⟩
  · intro next
    rw [middleware_refreshed config env next c htoken hexpire]
    have hw := Store.HGet_world env (refreshed config c) (c.Cookies config.CookieName)
      "created_at"
    generalize Store.HGet env (refreshed config c) (c.Cookies config.CookieName)
      "created_at" = r at hw hread
    obtain ⟨w, str, e⟩ := r
    simp only at hw hread
    have hwl : w = lookedUp config c := by rw [hw]; simp [lookedUp, refreshed]
    subst hwl
    cases e with
    | some e => rfl
    | none =>
      have hp : ParseInt str = none := by simpa using hread
      simp only [hp]
  · simp [World.Locals, World.setLocals]
  · intro key hkey
    exact expireRecords_other c.records _ key config.SessionDuration hkey
  · intro hd key
    exact expireRecords_fields c.records _ key config.SessionDuration
      (formatSec_pos _ hd)
  · intro h
    obtain ⟨e, he⟩ := HGet_refreshed_err config env c h
    rw [he]
    simp

/-- C5, three requests on the sample backend at second 5000: the token of a session
that does not exist, a failing `HGet`, and a session whose `created_at` is not a
number; in each the handler hands the presented token to the next handler. -/
theorem missing_created_at_skips_rotation_scenario :
    (∃ c' : World,
      (∀ next, NewSessionMiddleware sampleConfig (calmEnv 5000 32) next
        (sampleWorld.returning "sid" "unknown") = next c') ∧
      c'.Locals "session_id" = some (Local.str "unknown") ∧ c'.respCookies = ∅) ∧
    (NewSessionMiddleware sampleConfig
        { calmEnv 5000 32 with faults := fun i => decide (i = 3) } done sampleWorld).1.log =
      sampleWorld.log ++ [Command.Expire (fullKey sampleID) (3600 * Second),
        Command.HGet (fullKey sampleID) "created_at"] ∧
    (NewSessionMiddleware sampleConfig (calmEnv 5000 32) done
        ((Store.HSet (calmEnv 0 0) sampleWorld sampleID
          (AList.singleton "created_at" "yesterday")).1)).1.Locals "session_id" =
      some (Local.str sampleID) := by
  obtain ⟨c', h1, _, h3, h4, _, _⟩ :=
    missing_created_at_skips_rotation sampleConfig (calmEnv 5000 32)
      (sampleWorld.returning "sid" "unknown") (by decide) (by decide)
      (Or.inl (by decide))
  exact ⟨⟨c', h1, h4, h3⟩, by decide, by decide⟩

/-- C6. For every presented non-empty token, `Expire(token, SessionDuration)` is the
first command that the handler sends, whatever the backend holds; if it fails, the
handler returns `ErrInternalServerError` whatever the next handler is (which is
therefore not run), having sent no other command, set no cookie, attached no local
and changed no record. -/
theorem refresh_comes_first_and_failure_aborts (config : SessionMiddlewareConfig)
    (env : Env) (c : World)
    (htoken : c.Cookies config.CookieName ≠ "") :
    (∀ next : World → World × Option GoError,
      (∀ w, ∃ rest, (next w).1.log = w.log ++ rest) →
      ∃ rest, (NewSessionMiddleware config env next c).1.log =
        c.log ++ Command.Expire (fullKey (c.Cookies config.CookieName))
          config.SessionDuration :: rest) ∧
    (env.faults c.log.length = true →
      ∀ next : World → World × Option GoError,
        (NewSessionMiddleware config env next c).2 = some GoError.ErrInternalServerError ∧
        (NewSessionMiddleware config env next c).1.log =
          c.log ++ [Command.Expire (fullKey (c.Cookies config.CookieName))
            config.SessionDuration] ∧
        (NewSessionMiddleware config env next c).1.respCookies = c.respCookies ∧
        (NewSessionMiddleware config env next c).1.locals = c.locals ∧
        (NewSessionMiddleware config env next c).1.records = c.records) := by
  refine ⟨fun next hnext => middleware_log_head config env next c hnext htoken, ?_⟩
  intro hfail next
  rw [middleware_expire_fail config env next c htoken hfail]
  exact ⟨rfl, rfl, rfl, rfl, rfl⟩

/-- C6, the sample backend with the refresh failing: one command, an internal server
error, no cookie and no local. -/
theorem refresh_comes_first_and_failure_aborts_scenario :
    (NewSessionMiddleware sampleConfig
        { calmEnv 900 32 with faults := fun i => decide (i = 2) } done sampleWorld).2 =
      some GoError.ErrInternalServerError ∧
    (NewSessionMiddleware sampleConfig
        { calmEnv 900 32 with faults := fun i => decide (i = 2) } done sampleWorld).1.log =
      sampleWorld.log ++ [Command.Expire (fullKey sampleID) (3600 * Second)] ∧
    (NewSessionMiddleware sampleConfig
        { calmEnv 900 32 with faults := fun i => decide (i = 2) } done
          sampleWorld).1.Locals "session_id" = none := by
  have h := (refresh_comes_first_and_failure_aborts sampleConfig
    { calmEnv 900 32 with faults := fun i => decide (i = 2) } sampleWorld
    (by decide)).2 (by decide) done
  exact ⟨h.1, h.2.1, by decide⟩

/-- C7. For every rotation in which `HGetAll`, identifier generation, `HSet` and
`Expire` on the new identifier succeed, `rotateSessionID` succeeds whether or not the
`Del` of the old token succeeds: the commands sent are exactly `HGetAll`, `HSet`,
`Expire` and one `Del` of the old token, the cookie is set to the new identifier, and
the new identifier is returned with a nil error. -/
theorem rotation_ignores_clear_failure (env : Env) (c : World)
    (config : SessionMiddlewareConfig) (old : String)
    (h0 : env.faults c.log.length = false)
    (hrand : env.randErr = none)
    (h1 : env.faults (c.log.length + 1) = false)
    (h2 : env.faults (c.log.length + 2) = false) :
    (rotateSessionID env c config old).2 = ((generateSessionID env).1, none) ∧
    (rotateSessionID env c config old).1.log =
      c.log ++ [Command.HGetAll (fullKey old),
        Command.HSet (fullKey (generateSessionID env).1) (rotatedData env c old),
        Command.Expire (fullKey (generateSessionID env).1) config.SessionDuration,
        Command.Del (fullKey old)] ∧
    ((rotateSessionID env c config old).1.log.drop c.log.length).count
      (Command.Del (fullKey old)) = 1 ∧
    (rotateSessionID env c config old).1.respCookies.lookup config.CookieName =
      some { Name := config.CookieName, Value := (generateSessionID env).1,
             HTTPOnly := true, Secure := config.Secure, SameSite := "Lax", Path := "/",
             Expires := env.now + config.SessionDuration } ∧
    (∀ next, afterRotation next (rotateSessionID env c config old) =
      next ((rotateSessionID env c config old).1.setLocals "session_id"
        (Local.str (generateSessionID env).1))) := by
  rw [rotate_ok env c config old h0 hrand h1 h2]
  refine ⟨rfl, rfl, ?_, ?_, fun _ => rfl⟩
  · simp [rotationCommands, List.count_cons]
  · simp [sessionCookie]

/-- C7, the sample scenario with the `Del` failing: the rotation succeeds, the new
identifier is returned and set as cookie, and the old record is still there. -/
theorem rotation_ignores_clear_failure_scenario :
    (rotateSessionID { calmEnv 1801 32 with faults := fun i => decide (i = 5) }
        sampleWorld sampleConfig sampleID).2 =
      ("202122232425262728292a2b2c2d2e2f303132333435363738393a3b3c3d3e3f", none) ∧
    ((rotateSessionID { calmEnv 1801 32 with faults := fun i => decide (i = 5) }
        sampleWorld sampleConfig sampleID).1.log.drop sampleWorld.log.length).count
      (Command.Del (fullKey sampleID)) = 1 ∧
    (rotateSessionID { calmEnv 1801 32 with faults := fun i => decide (i = 5) }
        sampleWorld sampleConfig sampleID).1.records.lookup (fullKey sampleID) =
      sampleWorld.records.lookup (fullKey sampleID) := by
  have h := rotation_ignores_clear_failure
    { calmEnv 1801 32 with faults := fun i => decide (i = 5) } sampleWorld sampleConfig
    sampleID (by decide) (by decide) (by decide) (by decide)
  exact ⟨by decide, h.2.2.1, by decide⟩

/-- C8. For every 32-byte sequence delivered by the random source,
`generateSessionID` returns the hex encoding of those bytes with a nil error, a string
of exactly 64 characters, each in `0-9` or `a-f`; when the random source reports an
error it returns that error together with the empty string. -/
theorem generateSessionID_hex_or_error (env : Env) :
    (env.randErr = none →
      generateSessionID env =
        (hexEncodeToString ((List.range 32).map (fun i => env.randBytes i % 256)), none) ∧
      (generateSessionID env).1.length = 64 ∧
      (∀ ch ∈ (generateSessionID env).1.data, isLowerHex ch = true) ∧
      (∀ i, i < 32 → ((generateSessionID env).1.data.drop (2 * i)).take 2 =
        [hextable.getD (env.randBytes i % 256 / 16) '0',
          hextable.getD (env.randBytes i % 256 % 16) '0'])) ∧
    (∀ e, env.randErr = some e → generateSessionID env = ("", some e)) := by
  refine ⟨fun hrand => ?_, fun e he => generateSessionID_fail env e he⟩
  rw [generateSessionID_ok env hrand]
  refine ⟨rfl, ?_, ?_, ?_⟩
  · simp [hexEncodeToString, hexDigits_length]
  · exact hexDigits_isLowerHex _
  · intro i hi
    have hlen : i < ((List.range 32).map (fun i => env.randBytes i % 256)).length := by
      simpa using hi
    have hget : ((List.range 32).map (fun i => env.randBytes i % 256)).getD i 0 =
        env.randBytes i % 256 := by
      rw [List.getD_eq_getElem _ _ hlen]
      simp
    have h := hexDigits_pair _ i hlen
    rw [hget] at h
    simpa [hexEncodeToString, hexByte] using h

/-- C9. `GetSessionID` fails with `ErrUnauthorized` (and the empty string) exactly when
the local `session_id` is absent, is not a string, or is the empty string, and
otherwise returns the stored string with a nil error; `MustGetSessionID` returns the
same string whenever `GetSessionID` succeeds and panics exactly when it fails. -/
theorem GetSessionID_unauthorized_iff (c : World) :
    (GetSessionID c = ("", some GoError.ErrUnauthorized) ↔
      (c.Locals "session_id" = none ∨ (∃ tag, c.Locals "session_id" = some (Local.other tag)) ∨
        c.Locals "session_id" = some (Local.str ""))) ∧
    (∀ s, s ≠ "" → c.Locals "session_id" = some (Local.str s) →
      GetSessionID c = (s, none)) ∧
    (GetSessionID c = ("", some GoError.ErrUnauthorized) ∨
      ∃ s, s ≠ "" ∧ c.Locals "session_id" = some (Local.str s) ∧
        GetSessionID c = (s, none)) ∧
    (∀ s, GetSessionID c = (s, none) → MustGetSessionID c = Except.ok s) ∧
    ((∃ msg, MustGetSessionID c = Except.error msg) ↔ (GetSessionID c).2 ≠ none) := by
  cases h : c.Locals "session_id" with
  | none => simp [GetSessionID, MustGetSessionID, h]
  | some v =>
    cases v with
    | other tag => simp [GetSessionID, MustGetSessionID, h]
    | str s =>
      by_cases hs : s = ""
      · subst hs
        simp only [GetSessionID, MustGetSessionID, h]
        simp
        exact fun s hs hs' => hs hs'.symm
      · simp [GetSessionID, MustGetSessionID, h, hs]

/-- C10. For every input string, `EscapeString` returns the input with exactly one
backslash inserted immediately before each character that is not an ASCII letter,
digit, underscore or space, every other character unchanged and in the original
order: dropping the inserted backslashes gives the input back, the length grows by
the number of such characters, and a string made only of letters, digits, underscores
and spaces is returned unchanged. -/
theorem EscapeString_inserts_backslashes (value : String) :
    (EscapeString value).data = backslashBeforeSpecial value.data ∧
    dropEscapes (EscapeString value).data = value.data ∧
    (EscapeString value).length = value.length +
      value.data.countP (fun c => !isPlain c) ∧
    ((∀ c ∈ value.data, isPlain c = true) → EscapeString value = value) ∧
    EscapeString "mixed'\"chars;" = "mixed\\'\\\"chars\\;" ∧
    EscapeString "simpleTest123" = "simpleTest123" := by
  have h : (EscapeString value).data = backslashBeforeSpecial value.data :=
    replaceAllChars_escape value.data
  refine ⟨h, ?_, ?_, ?_, by decide, by decide⟩
  · rw [h]; exact dropEscapes_backslashBeforeSpecial _
  · show (EscapeString value).data.length = value.data.length + _
    rw [h]; exact backslashBeforeSpecial_length _
  · intro hplain
    apply String.ext
    rw [h]
    exact backslashBeforeSpecial_plain _ hplain

/-- C8, two samples: the bytes `0, ..., 31` give an identifier of 64 characters, and
an error of the random source comes back with the empty string. -/
theorem generateSessionID_hex_or_error_sample :
    generateSessionID (calmEnv 0 0) = (sampleID, none) ∧
    (generateSessionID (calmEnv 0 0)).1.length = 64 ∧
    generateSessionID { calmEnv 0 0 with randErr := some (GoError.rand "unavailable") } =
      ("", some (GoError.rand "unavailable")) :=
  ⟨by decide, ((generateSessionID_hex_or_error (calmEnv 0 0)).1 rfl).2.1,
    (generateSessionID_hex_or_error
      { calmEnv 0 0 with randErr := some (GoError.rand "unavailable") }).2 _ rfl⟩

/-- C9, two samples: no local gives `ErrUnauthorized` and a panic; the local attached
by the handler is returned by both accessors. -/
theorem GetSessionID_unauthorized_iff_sample :
    GetSessionID emptyWorld = ("", some GoError.ErrUnauthorized) ∧
    MustGetSessionID emptyWorld = Except.error "missing session ID" ∧
    GetSessionID (emptyWorld.setLocals "session_id" (Local.str sampleID)) =
      (sampleID, none) ∧
    MustGetSessionID (emptyWorld.setLocals "session_id" (Local.str sampleID)) =
      Except.ok sampleID :=
  ⟨(GetSessionID_unauthorized_iff emptyWorld).1.2 (Or.inl (by decide)), rfl,
    (GetSessionID_unauthorized_iff (emptyWorld.setLocals "session_id"
      (Local.str sampleID))).2.1 sampleID (by decide) (by decide),
    (GetSessionID_unauthorized_iff (emptyWorld.setLocals "session_id"
      (Local.str sampleID))).2.2.2.1 sampleID (by decide)⟩

/-- C10, the cases of `TestEscapeString`. -/
theorem EscapeString_inserts_backslashes_samples :
    EscapeString "test'quote" = "test\\'quote" ∧
    EscapeString "hello;drop" = "hello\\;drop" ∧
    EscapeString "newline\n" = "newline\\\n" ∧
    EscapeString "special#chars!" = "special\\#chars\\!" ∧
    EscapeString "a_b c" = "a_b c" ∧
    (EscapeString "test'quote").length = 11 :=
  ⟨by decide, by decide, by decide, by decide,
    (EscapeString_inserts_backslashes "a_b c").2.2.2.1 (by decide),
    by rw [(EscapeString_inserts_backslashes "test'quote").2.2.1]; decide⟩

theorem ToUpper_eq_empty (upper : Char → Char) (s : String) :
    ToUpper upper s = "" ↔ s = "" := by
  constructor
  · intro h
    have hd := congrArg String.data h
    simp only [ToUpper, List.map_eq_nil_iff] at hd
    exact String.ext hd
  · intro h
    subst h
    rfl

theorem SetLogLevel_cases (env : LogEnv) (st : LogState) :
    SetLogLevel env st =
      if levelName env = "ERROR" then { st with currentLevel := LOG_ERROR }
      else if levelName env = "WARN" then { st with currentLevel := LOG_WARN }
      else if levelName env = "INFO" then { st with currentLevel := LOG_INFO }
      else if levelName env = "DEBUG" then { st with currentLevel := LOG_DEBUG }
      else if env.LOG_LEVEL = "" then { st with currentLevel := LOG_INFO }
      else { currentLevel := LOG_INFO, written := st.written ++ [invalidLevelWarning env] } := by
  simp only [SetLogLevel, levelName, ToUpper_eq_empty, logPrintf, invalidLevelWarning]

theorem append_singleton_ne_self {α : Type} (l : List α) (x : α) : l ++ [x] ≠ l := by
  intro h
  have := congrArg List.length h
  simp at this

theorem toNat_ofNat_capital (n : Nat) (h1 : 97 ≤ n) (h2 : n ≤ 122) :
    (Char.ofNat (n - 32)).toNat = n - 32 := by
  interval_cases n <;> rfl

theorem unicodeToUpper_eq_capital (other : Char → Char)
    (hother : ∀ c : Char, 128 ≤ c.toNat → 128 ≤ (other c).toNat) (c capital : Char)
    (h1 : 65 ≤ capital.toNat) (h2 : capital.toNat ≤ 90) :
    unicodeToUpper other c = capital ↔ sameLetter c capital = true := by
  have hI : dotlessI.toNat = 305 := rfl
  have hS : longS.toNat = 383 := rfl
  have hcI : ('I' : Char).toNat = 73 := rfl
  have hcS : ('S' : Char).toNat = 83 := rfl
  have heq : ∀ a b : Char, a = b → a.toNat = b.toNat := fun a b h => congrArg _ h
  simp only [sameLetter, sameAsciiLetter, Bool.or_eq_true, Bool.and_eq_true, beq_iff_eq]
  unfold unicodeToUpper
  by_cases h128 : c.toNat < 128
  · rw [if_pos h128]
    by_cases hlow : 97 ≤ c.toNat ∧ c.toNat ≤ 122
    · rw [if_pos hlow]
      constructor
      · intro h
        have := heq _ _ h
        rw [toNat_ofNat_capital _ hlow.1 hlow.2] at this
        exact Or.inl (Or.inl (Or.inr (by omega)))
      · rintro (((h | h) | ⟨_, h⟩) | ⟨_, h⟩)
        · have := heq _ _ h; omega
        · have e : c.toNat - 32 = capital.toNat := by omega
          rw [e, Char.ofNat_toNat]
        · have := heq _ _ h; omega
        · have := heq _ _ h; omega
    · rw [if_neg hlow]
      constructor
      · intro h; exact Or.inl (Or.inl (Or.inl h))
      · rintro (((h | h) | ⟨_, h⟩) | ⟨_, h⟩)
        · exact h
        · exfalso; omega
        · have := heq _ _ h; omega
        · have := heq _ _ h; omega
  · rw [if_neg h128]
    by_cases hdi : c = dotlessI
    · rw [if_pos hdi]
      constructor
      · intro h; exact Or.inl (Or.inr ⟨h.symm, hdi⟩)
      · rintro (((h | h) | ⟨h, _⟩) | ⟨_, h⟩)
        · have := heq _ _ h; omega
        · exfalso; omega
        · exact h.symm
        · rw [hdi] at h; exact absurd (heq _ _ h) (by decide)
    · rw [if_neg hdi]
      by_cases hls : c = longS
      · rw [if_pos hls]
        constructor
        · intro h; exact Or.inr ⟨h.symm, hls⟩
        · rintro (((h | h) | ⟨_, h⟩) | ⟨h, _⟩)
          · have := heq _ _ h; omega
          · exfalso; omega
          · exact absurd h hdi
          · exact h.symm
      · rw [if_neg hls]
        constructor
        · intro h
          have := heq _ _ h
          have := hother c (by omega)
          omega
        · rintro (((h | h) | ⟨_, h⟩) | ⟨_, h⟩)
          · have := heq _ _ h; omega
          · exfalso; omega
          · exact absurd h hdi
          · exact absurd h hls

theorem map_eq_iff_spells (other : Char → Char)
    (hother : ∀ c : Char, 128 ≤ c.toNat → 128 ≤ (other c).toNat) (l capitals : List Char)
    (hcap : ∀ x ∈ capitals, 65 ≤ x.toNat ∧ x.toNat ≤ 90) :
    l.map (unicodeToUpper other) = capitals ↔ spells sameLetter l capitals = true := by
  induction l generalizing capitals with
  | nil =>
    cases capitals with
    | nil => simp [spells]
    | cons x xs => simp [spells]
  | cons c cs ih =>
    cases capitals with
    | nil => simp [spells]
    | cons x xs =>
      have hx := hcap x (List.mem_cons_self _ _)
      have hxs : ∀ y ∈ xs, 65 ≤ y.toNat ∧ y.toNat ≤ 90 :=
        fun y hy => hcap y (List.mem_cons_of_mem _ hy)
      simp only [List.map_cons, List.cons.injEq, spells, Bool.and_eq_true,
        unicodeToUpper_eq_capital other hother c x hx.1 hx.2, ih xs hxs]

theorem spells_ascii_imp (l capitals : List Char)
    (h : spells sameAsciiLetter l capitals = true) : spells sameLetter l capitals = true := by
  induction l generalizing capitals with
  | nil => cases capitals <;> simp_all [spells]
  | cons c cs ih =>
    cases capitals with
    | nil => simp [spells] at h
    | cons x xs =>
      simp only [spells, Bool.and_eq_true] at h ⊢
      exact ⟨by simp [sameLetter, h.1], ih xs h.2⟩

theorem spells_eq_ascii (l capitals : List Char)
    (hno : ∀ x ∈ capitals, x ≠ 'I' ∧ x ≠ 'S') :
    spells sameAsciiLetter l capitals = spells sameLetter l capitals := by
  induction l generalizing capitals with
  | nil => cases capitals <;> rfl
  | cons c cs ih =>
    cases capitals with
    | nil => rfl
    | cons x xs =>
      have hx := hno x (List.mem_cons_self _ _)
      have hxs : ∀ y ∈ xs, y ≠ 'I' ∧ y ≠ 'S' :=
        fun y hy => hno y (List.mem_cons_of_mem _ hy)
      have e : sameLetter c x = sameAsciiLetter c x := by
        have e1 : (x == 'I') = false := by simpa using hx.1
        have e2 : (x == 'S') = false := by simpa using hx.2
        simp only [sameLetter, e1, e2, Bool.false_and, Bool.or_false]
      simp only [spells, e, ih xs hxs]

theorem levelName_eq_iff (env : LogEnv) (name : String)
    (hcap : ∀ x ∈ name.data, 65 ≤ x.toNat ∧ x.toNat ≤ 90) :
    levelName env = name ↔ namesLevel env.LOG_LEVEL name = true := by
  rw [namesLevel, ← map_eq_iff_spells env.upperOther env.upperOther_outside _ _ hcap]
  constructor
  · intro h
    have := congrArg String.data h
    simpa [levelName, ToUpper] using this
  · intro h
    apply String.ext
    simpa [levelName, ToUpper] using h

theorem SetLogLevel_by_levelName (env : LogEnv) (st : LogState) :
    (levelName env = "ERROR" → (SetLogLevel env st).currentLevel = LOG_ERROR) ∧
    (levelName env = "WARN" → (SetLogLevel env st).currentLevel = LOG_WARN) ∧
    (levelName env = "INFO" → (SetLogLevel env st).currentLevel = LOG_INFO) ∧
    (levelName env = "DEBUG" → (SetLogLevel env st).currentLevel = LOG_DEBUG) ∧
    (¬ recognisedLevel env → (SetLogLevel env st).currentLevel = LOG_INFO) ∧
    ((SetLogLevel env st).written = st.written ++ [invalidLevelWarning env] ↔
      env.LOG_LEVEL ≠ "" ∧ ¬ recognisedLevel env) ∧
    (¬ (env.LOG_LEVEL ≠ "" ∧ ¬ recognisedLevel env) →
      (SetLogLevel env st).written = st.written) ∧
    (∀ (level : Int) (label format : String) (args : List String),
      ((logf (SetLogLevel env st) level label format args).written =
          (SetLogLevel env st).written ++
            [{ format := "[" ++ label ++ "] " ++ format, args := args }] ↔
        level ≤ (SetLogLevel env st).currentLevel) ∧
      (¬ level ≤ (SetLogLevel env st).currentLevel →
        (logf (SetLogLevel env st) level label format args).written =
          (SetLogLevel env st).written)) ∧
    ((SetLogLevel env st).currentLevel = LOG_INFO →
      ∀ (format : String) (args : List String),
        (Error (SetLogLevel env st) format args).written =
          (SetLogLevel env st).written ++ [{ format := "[ERROR] " ++ format, args := args }] ∧
        (Warn (SetLogLevel env st) format args).written =
          (SetLogLevel env st).written ++ [{ format := "[WARN] " ++ format, args := args }] ∧
        (Info (SetLogLevel env st) format args).written =
          (SetLogLevel env st).written ++ [{ format := "[INFO] " ++ format, args := args }] ∧
        (Debug (SetLogLevel env st) format args).written = (SetLogLevel env st).written) := by
  have hlogf : ∀ (s : LogState) (level : Int) (label format : String) (args : List String),
      ((logf s level label format args).written =
          s.written ++ [{ format := "[" ++ label ++ "] " ++ format, args := args }] ↔
        level ≤ s.currentLevel) ∧
      (¬ level ≤ s.currentLevel → (logf s level label format args).written = s.written) := by
    intro s level label format args
    by_cases h : level ≤ s.currentLevel
    · simp [logf, logPrintf, h]
    · simp only [logf, h, if_false, iff_false, not_false_eq_true, forall_true_left, and_true]
      exact fun e => append_singleton_ne_self _ _ e.symm
  refine ⟨?_, ?_, ?_, ?_, ?_, ?_, ?_, fun level label format args =>
    hlogf _ level label format args, ?_⟩
  · intro h; simp [SetLogLevel_cases, h]
  · intro h; simp [SetLogLevel_cases, h]
  · intro h; simp [SetLogLevel_cases, h]
  · intro h; simp [SetLogLevel_cases, h]
  · intro h
    simp only [recognisedLevel, not_or] at h
    rw [SetLogLevel_cases]
    simp only [h.1, h.2.1, h.2.2.1, h.2.2.2, if_false]
    split <;> rfl
  · rw [SetLogLevel_cases]
    unfold recognisedLevel
    by_cases h1 : levelName env = "ERROR"
    · simp only [h1, if_true, true_or, not_true_eq_false, and_false, iff_false]
      exact fun e => append_singleton_ne_self _ _ e.symm
    by_cases h2 : levelName env = "WARN"
    · simp only [h1, h2, if_true, if_false, true_or, or_true, not_true_eq_false, and_false,
        iff_false]
      exact fun e => append_singleton_ne_self _ _ e.symm
    by_cases h3 : levelName env = "INFO"
    · simp only [h1, h2, h3, if_true, if_false, true_or, or_true, not_true_eq_false,
        and_false, iff_false]
      exact fun e => append_singleton_ne_self _ _ e.symm
    by_cases h4 : levelName env = "DEBUG"
    · simp only [h1, h2, h3, h4, if_true, if_false, or_true, not_true_eq_false, and_false,
        iff_false]
      exact fun e => append_singleton_ne_self _ _ e.symm
    by_cases h5 : env.LOG_LEVEL = ""
    · simp only [h1, h2, h3, h4, h5, if_true, if_false, ne_eq, not_true_eq_false,
        false_and, iff_false]
      exact fun e => append_singleton_ne_self _ _ e.symm
    · simp [h1, h2, h3, h4, h5]
  · intro h
    rw [SetLogLevel_cases]
    unfold recognisedLevel at h
    by_cases h1 : levelName env = "ERROR"
    · simp [h1]
    by_cases h2 : levelName env = "WARN"
    · simp [h1, h2]
    by_cases h3 : levelName env = "INFO"
    · simp [h1, h2, h3]
    by_cases h4 : levelName env = "DEBUG"
    · simp [h1, h2, h3, h4]
    by_cases h5 : env.LOG_LEVEL = ""
    · simp [h1, h2, h3, h4, h5]
    · exact absurd ⟨h5, by simp [h1, h2, h3, h4]⟩ h
  · intro hinfo format args
    have hE := (hlogf (SetLogLevel env st) LOG_ERROR "ERROR" format args).1.2
      (by rw [hinfo]; decide)
    have hW := (hlogf (SetLogLevel env st) LOG_WARN "WARN" format args).1.2
      (by rw [hinfo]; decide)
    have hI := (hlogf (SetLogLevel env st) LOG_INFO "INFO" format args).1.2
      (le_of_eq hinfo.symm)
    have hD := (hlogf (SetLogLevel env st) LOG_DEBUG "DEBUG" format args).2
      (by rw [hinfo]; decide)
    exact ⟨hE, hW, hI, hD⟩

/-- C11. For every value of `LOG_LEVEL`, after `SetLogLevel` the current level is
`LOG_ERROR`, `LOG_WARN`, `LOG_INFO` or `LOG_DEBUG` when the value equals that name
case-insensitively, and `LOG_INFO` otherwise; the "Invalid LOG_LEVEL" warning is
printed exactly when the value is non-empty and equals none of the names, and nothing
else is printed; a message of level `L` is then written if and only if `L` is at most
the current level, by `logf` and by each of `Error`, `Warn`, `Info` and `Debug` at
every level, so at `LOG_INFO` the messages of `Error`, `Warn` and `Info` are written
and those of `Debug` are not. Case is that of `strings.ToUpper`: a value equals a name
when letter by letter it has the capital or the small letter, where the small dotless
i (U+0131) also counts for `I`; for `ERROR`, `WARN` and `DEBUG` this is equality up to
the case of ASCII letters. -/
theorem SetLogLevel_then_logf (env : LogEnv) (st : LogState) :
    (namesLevel env.LOG_LEVEL "ERROR" = true →
      (SetLogLevel env st).currentLevel = LOG_ERROR) ∧
    (namesLevel env.LOG_LEVEL "WARN" = true →
      (SetLogLevel env st).currentLevel = LOG_WARN) ∧
    (namesLevel env.LOG_LEVEL "INFO" = true →
      (SetLogLevel env st).currentLevel = LOG_INFO) ∧
    (namesLevel env.LOG_LEVEL "DEBUG" = true →
      (SetLogLevel env st).currentLevel = LOG_DEBUG) ∧
    (namesSomeLevel env.LOG_LEVEL = false →
      (SetLogLevel env st).currentLevel = LOG_INFO) ∧
    (namesLevelAscii env.LOG_LEVEL "ERROR" = namesLevel env.LOG_LEVEL "ERROR" ∧
      namesLevelAscii env.LOG_LEVEL "WARN" = namesLevel env.LOG_LEVEL "WARN" ∧
      namesLevelAscii env.LOG_LEVEL "DEBUG" = namesLevel env.LOG_LEVEL "DEBUG" ∧
      (namesLevelAscii env.LOG_LEVEL "INFO" = true →
        namesLevel env.LOG_LEVEL "INFO" = true)) ∧
    ((SetLogLevel env st).written = st.written ++ [invalidLevelWarning env] ↔
      env.LOG_LEVEL ≠ "" ∧ namesSomeLevel env.LOG_LEVEL = false) ∧
    (¬ (env.LOG_LEVEL ≠ "" ∧ namesSomeLevel env.LOG_LEVEL = false) →
      (SetLogLevel env st).written = st.written) ∧
    (∀ (level : Int) (label format : String) (args : List String),
      ((logf (SetLogLevel env st) level label format args).written =
          (SetLogLevel env st).written ++
            [{ format := "[" ++ label ++ "] " ++ format, args := args }] ↔
        level ≤ (SetLogLevel env st).currentLevel) ∧
      (¬ level ≤ (SetLogLevel env st).currentLevel →
        (logf (SetLogLevel env st) level label format args).written =
          (SetLogLevel env st).written)) ∧
    (∀ (s : LogState) (format : String) (args : List String),
      ((Error s format args).written =
          s.written ++ [{ format := "[ERROR] " ++ format, args := args }] ↔
        LOG_ERROR ≤ s.currentLevel) ∧
      ((Warn s format args).written =
          s.written ++ [{ format := "[WARN] " ++ format, args := args }] ↔
        LOG_WARN ≤ s.currentLevel) ∧
      ((Info s format args).written =
          s.written ++ [{ format := "[INFO] " ++ format, args := args }] ↔
        LOG_INFO ≤ s.currentLevel) ∧
      ((Debug s format args).written =
          s.written ++ [{ format := "[DEBUG] " ++ format, args := args }] ↔
        LOG_DEBUG ≤ s.currentLevel) ∧
      (¬ LOG_ERROR ≤ s.currentLevel → (Error s format args).written = s.written) ∧
      (¬ LOG_WARN ≤ s.currentLevel → (Warn s format args).written = s.written) ∧
      (¬ LOG_INFO ≤ s.currentLevel → (Info s format args).written = s.written) ∧
      (¬ LOG_DEBUG ≤ s.currentLevel → (Debug s format args).written = s.written)) ∧
    ((SetLogLevel env st).currentLevel = LOG_ERROR ∨
      (SetLogLevel env st).currentLevel = LOG_WARN ∨
      (SetLogLevel env st).currentLevel = LOG_INFO ∨
      (SetLogLevel env st).currentLevel = LOG_DEBUG) ∧
    ((SetLogLevel env st).currentLevel = LOG_INFO →
      ∀ (format : String) (args : List String),
        (Error (SetLogLevel env st) format args).written =
          (SetLogLevel env st).written ++ [{ format := "[ERROR] " ++ format, args := args }] ∧
        (Warn (SetLogLevel env st) format args).written =
          (SetLogLevel env st).written ++ [{ format := "[WARN] " ++ format, args := args }] ∧
        (Info (SetLogLevel env st) format args).written =
          (SetLogLevel env st).written ++ [{ format := "[INFO] " ++ format, args := args }] ∧
        (Debug (SetLogLevel env st) format args).written = (SetLogLevel env st).written) := by
  have hE := levelName_eq_iff env "ERROR" (by decide)
  have hW := levelName_eq_iff env "WARN" (by decide)
  have hI := levelName_eq_iff env "INFO" (by decide)
  have hD := levelName_eq_iff env "DEBUG" (by decide)
  have hrec : recognisedLevel env ↔ namesSomeLevel env.LOG_LEVEL = true := by
    simp only [recognisedLevel, namesSomeLevel, hE, hW, hI, hD, Bool.or_eq_true, or_assoc]
  have hnot : ¬ recognisedLevel env ↔ namesSomeLevel env.LOG_LEVEL = false := by
    rw [hrec]; simp
  obtain ⟨o1, o2, o3, o4, o5, o6, o7, o8, o9⟩ := SetLogLevel_by_levelName env st
  have hwrap : ∀ (s : LogState) (level : Int) (label format : String) (args : List String),
      ((logf s level label format args).written =
          s.written ++ [{ format := "[" ++ label ++ "] " ++ format, args := args }] ↔
        level ≤ s.currentLevel) ∧
      (¬ level ≤ s.currentLevel → (logf s level label format args).written = s.written) := by
    intro s level label format args
    by_cases h : level ≤ s.currentLevel
    · simp [logf, logPrintf, h]
    · simp only [logf, h, if_false, iff_false, not_false_eq_true, forall_true_left, and_true]
      exact fun e => append_singleton_ne_self _ _ e.symm
  refine ⟨fun h => o1 (hE.mpr h), fun h => o2 (hW.mpr h), fun h => o3 (hI.mpr h),
    fun h => o4 (hD.mpr h), fun h => o5 (hnot.mpr h), ?_, ?_, ?_, o8, ?_, ?_, o9⟩
  · refine ⟨spells_eq_ascii _ _ (by decide), spells_eq_ascii _ _ (by decide),
      spells_eq_ascii _ _ (by decide), spells_ascii_imp _ _⟩
  · rw [o6, hnot]
  · rw [← hnot]; exact o7
  · intro s format args
    exact ⟨(hwrap s LOG_ERROR "ERROR" format args).1, (hwrap s LOG_WARN "WARN" format args).1,
      (hwrap s LOG_INFO "INFO" format args).1, (hwrap s LOG_DEBUG "DEBUG" format args).1,
      (hwrap s LOG_ERROR "ERROR" format args).2, (hwrap s LOG_WARN "WARN" format args).2,
      (hwrap s LOG_INFO "INFO" format args).2, (hwrap s LOG_DEBUG "DEBUG" format args).2⟩
  · by_cases h1 : levelName env = "ERROR"
    · exact Or.inl (o1 h1)
    by_cases h2 : levelName env = "WARN"
    · exact Or.inr (Or.inl (o2 h2))
    by_cases h4 : levelName env = "DEBUG"
    · exact Or.inr (Or.inr (Or.inr (o4 h4)))
    by_cases h3 : levelName env = "INFO"
    · exact Or.inr (Or.inr (Or.inl (o3 h3)))
    · exact Or.inr (Or.inr (Or.inl (o5 (by simp [recognisedLevel, h1, h2, h3, h4]))))

/-- C11, the cases of `TestSetLogLevelFromEnv` and `TestLoggingLevels`, with the names
also in small and mixed letters, the spelling of `info` with the dotless i, and the
four functions at the levels `LOG_DEBUG` and `LOG_ERROR`. -/
theorem SetLogLevel_then_logf_samples :
    (SetLogLevel (logEnv "DEBUG") LogState.initial).currentLevel = LOG_DEBUG ∧
    (SetLogLevel (logEnv "debug") LogState.initial).currentLevel = LOG_DEBUG ∧
    (SetLogLevel (logEnv "Warn") LogState.initial).currentLevel = LOG_WARN ∧
    (SetLogLevel (logEnv "ERROR") LogState.initial).currentLevel = LOG_ERROR ∧
    (SetLogLevel (logEnv "info") LogState.initial).written = [] ∧
    (SetLogLevel (logEnv "") LogState.initial).currentLevel = LOG_INFO ∧
    (SetLogLevel (logEnv "") LogState.initial).written = [] ∧
    (SetLogLevel (logEnv "INVALID_LEVEL") LogState.initial).currentLevel = LOG_INFO ∧
    (SetLogLevel (logEnv "INVALID_LEVEL") LogState.initial).written =
      [{ format := "[WARN] Invalid LOG_LEVEL '%s'; defaulting to LOG_INFO",
         args := ["INVALID_LEVEL"] }] ∧
    (SetLogLevel (logEnv "ınfo") LogState.initial).currentLevel = LOG_INFO ∧
    (SetLogLevel (logEnv "ınfo") LogState.initial).written = [] ∧
    namesLevel "ınfo" "INFO" = true ∧ namesLevelAscii "ınfo" "INFO" = false ∧
    (Debug (SetLogLevel (logEnv "") LogState.initial) "debug log" []).written = [] ∧
    (Info (SetLogLevel (logEnv "") LogState.initial) "info log" []).written =
      [{ format := "[INFO] info log", args := [] }] ∧
    (Error (SetLogLevel (logEnv "WARN") LogState.initial) "error log" []).written =
      [{ format := "[ERROR] error log", args := [] }] ∧
    (Info (SetLogLevel (logEnv "WARN") LogState.initial) "info log" []).written = [] ∧
    (Debug (SetLogLevel (logEnv "debug") LogState.initial) "debug log" []).written =
      [{ format := "[DEBUG] debug log", args := [] }] ∧
    (Warn (SetLogLevel (logEnv "error") LogState.initial) "warn log" []).written = [] := by
  have h := SetLogLevel_then_logf (logEnv "debug") LogState.initial
  have hempty := SetLogLevel_then_logf (logEnv "") LogState.initial
  refine ⟨by decide, h.2.2.2.1 (by decide), by decide, by decide, by decide, by decide,
    by decide, by decide, by decide, by decide, by decide, by decide, by decide, ?_,
    by decide, by decide, by decide, ?_, by decide⟩
  · exact ((hempty.2.2.2.2.2.2.2.2.2.2.2 (by decide)) "debug log" []).2.2.2
  · exact ((h.2.2.2.2.2.2.2.2.2.1 (SetLogLevel (logEnv "debug") LogState.initial)
      "debug log" []).2.2.2.1).mpr (by decide)

/-- C12. For every rotation in which the generated identifier equals the old token
and all store operations succeed, `rotateSessionID` returns that identifier with a nil
error and sets it as the cookie, the handler attaches it and runs the next handler,
and yet the backend holds no record for it afterwards: for a positive
`SessionDuration` the record written by `HSet` and `Expire` (with `created_at = now`
and the TTL `SessionDuration` in whole seconds) is there before the `Del` of the old
token and is removed by it (for a `SessionDuration` that is not positive the `Expire`
has already removed what `HSet` wrote). No command or test between the generation and
the `Del` depends on the two identifiers being different. -/
theorem rotation_collision_loses_session (env : Env) (c : World)
    (config : SessionMiddlewareConfig) (old : String)
    (hrand : env.randErr = none)
    (hsame : (generateSessionID env).1 = old)
    (h0 : env.faults c.log.length = false)
    (h1 : env.faults (c.log.length + 1) = false)
    (h2 : env.faults (c.log.length + 2) = false)
    (h3 : env.faults (c.log.length + 3) = false) :
    (rotateSessionID env c config old).2 = (old, none) ∧
    (rotateSessionID env c config old).1.respCookies.lookup config.CookieName =
      some { Name := config.CookieName, Value := old, HTTPOnly := true,
             Secure := config.Secure, SameSite := "Lax", Path := "/",
             Expires := env.now + config.SessionDuration } ∧
    (∀ next, afterRotation next (rotateSessionID env c config old) =
      next ((rotateSessionID env c config old).1.setLocals "session_id" (Local.str old))) ∧
    (rotateSessionID env c config old).1.records.lookup (fullKey old) = none ∧
    (rotateSessionID env c config old).1.log =
      c.log ++ [Command.HGetAll (fullKey old),
        Command.HSet (fullKey old) (rotatedData env c old),
        Command.Expire (fullKey old) config.SessionDuration,
        Command.Del (fullKey old)] ∧
    (rotateSessionID env c config old).1.records =
      (expireRecords (writtenRecords env c old) (fullKey old)
        config.SessionDuration).erase (fullKey old) ∧
    (0 < config.SessionDuration →
      ((expireRecords (writtenRecords env c old) (fullKey old)
          config.SessionDuration).lookup (fullKey old)).map Record.ttl =
        some (some (formatSec config.SessionDuration * Second)) ∧
      ((expireRecords (writtenRecords env c old) (fullKey old)
          config.SessionDuration).lookup (fullKey old)).bind
        (fun r => r.fields.lookup "created_at") = some (FormatInt (unixSeconds env.now))) ∧
    (config.SessionDuration ≤ 0 →
      (expireRecords (writtenRecords env c old) (fullKey old)
        config.SessionDuration).lookup (fullKey old) = none ∧
      ((writtenRecords env c old).lookup (fullKey old)).bind
        (fun r => r.fields.lookup "created_at") = some (FormatInt (unixSeconds env.now))) := by
  subst hsame
  have hrot := rotate_ok env c config (generateSessionID env).1 h0 hrand h1 h2
  simp only [h3, Bool.false_eq_true, if_false] at hrot
  have hcreated := written_fields_lookup env c (generateSessionID env).1 "created_at" _
    (rotatedData_lookup_createdAt env c (generateSessionID env).1)
  refine ⟨by rw [hrot], ?_, fun next => by rw [hrot]; rfl, ?_, by rw [hrot]; rfl,
    by rw [hrot], ?_, ?_⟩
  · rw [hrot]
    simp [sessionCookie]
  · rw [hrot]
    exact AList.lookup_erase _ _
  · intro hd
    rw [expired_written_lookup env c _ _ (formatSec_pos _ hd)]
    exact ⟨rfl, hcreated⟩
  · intro hd
    refine ⟨expireRecords_deleted _ _ _ (formatSec_nonpos _ hd), ?_⟩
    have hw : (writtenRecords env c (generateSessionID env).1).lookup
        (fullKey (generateSessionID env).1) =
        some (hsetRecord (c.records.lookup (fullKey (generateSessionID env).1))
          (rotatedData env c (generateSessionID env).1)) := by
      unfold writtenRecords
      exact AList.lookup_insert _
    rw [hw]
    exact hcreated

/-- C12, the input: the session of the sample scenario is rotated at second 1801 and
the random source delivers the bytes of its own identifier again. The identifier is
returned and set as cookie; the backend has no record for it. -/
theorem rotation_collision_loses_session_sample :
    (generateSessionID (calmEnv 1801 0)).1 = sampleID ∧
    (sampleWorld.records.lookup (fullKey sampleID)).isSome = true ∧
    (rotateSessionID (calmEnv 1801 0) sampleWorld sampleConfig sampleID).2 =
      (sampleID, none) ∧
    ((rotateSessionID (calmEnv 1801 0) sampleWorld sampleConfig sampleID).1.respCookies.lookup
      "sid").map Cookie.Value = some sampleID ∧
    (rotateSessionID (calmEnv 1801 0) sampleWorld sampleConfig sampleID).1.records.lookup
      (fullKey sampleID) = none ∧
    (rotateSessionID (calmEnv 1801 0) sampleWorld sampleConfig sampleID).1.records = ∅ := by
  have h := rotation_collision_loses_session (calmEnv 1801 0) sampleWorld sampleConfig
    sampleID (by decide) (by decide) (by decide) (by decide) (by decide) (by decide)
  exact ⟨by decide, by decide, h.1, by decide, h.2.2.2.1, by decide⟩

end GoKit
